import Mathlib

/-!
# The agent message bus (internal/communication/bus.go)

A shallow embedding of `internal/communication/bus.go` (package `communication`).

Conventions of the embedding:

* a Go `string` is a `String`, a `[]byte` a list of bytes, a slice a `List`,
  an `error` that may be `nil` an `Option GoError`;
* a map `map[MessageType][]func(*AgentMessage)` is an association list read with
  `mapGet` (a missing key reads as the nil slice) and written with `mapSet`;
* a handler is a Go function value: it is represented by its identity, and calling it
  is recorded as an `Invocation` in a log;
* the connection `net.Conn` is outside the repository: the bus state records the calls
  made on it, and what each call returns is an argument of the operation making it;
* `encoding/json` is outside the repository: the two functions the bus calls are the
  fields of a `Codec` that the operations take as an argument;
* the mutex is not represented: every operation, and every pass of the receive loop,
  is one atomic step.
-/

namespace Communication

/-! ## Data model -/

/-- One byte of a frame or of a payload. -/
abbrev Byte := Fin 256

/-- Go error values: those of type `communicationError`, declared by the package, and
those coming from elsewhere (the connection, `encoding/json`). -/
inductive GoError where
  | communicationError (text : String)
  | foreign (text : String)
deriving DecidableEq, Repr

/-- Go: `var ErrBusClosed = communicationError("message bus is closed")`. -/
def ErrBusClosed : GoError := GoError.communicationError "message bus is closed"

/-- Go: `type AgentType string`. -/
abbrev AgentType := String

def POAgent : AgentType := "po"
def DevAgent : AgentType := "dev"
def SMAgent : AgentType := "sm"

/-- Go: `type PriorityLevel int`. -/
abbrev PriorityLevel := Int

def LowPriority : PriorityLevel := 0
def MediumPriority : PriorityLevel := 1
def HighPriority : PriorityLevel := 2

/-- Go: `type MessageType string`. -/
abbrev MessageType := String

def MsgStoryCreated : MessageType := "story.created"
def MsgBacklogUpdated : MessageType := "backlog.updated"
def MsgAcceptanceRequest : MessageType := "acceptance.request"
def MsgTaskBreakdown : MessageType := "task.breakdown"
def MsgProgressUpdate : MessageType := "progress.update"
def MsgObstacleReport : MessageType := "obstacle.report"
def MsgSprintStart : MessageType := "sprint.start"
def MsgDailyStandup : MessageType := "daily.standup"
def MsgRetrospective : MessageType := "retrospective"
def MsgAck : MessageType := "acknowledgment"
def MsgError : MessageType := "error"

/-- A `time.Time`, as the calendar reading it denotes. The bus only carries it. -/
structure Time where
  year : Int
  month : Nat
  day : Nat
  hour : Nat
  minute : Nat
  second : Nat
  nanosecond : Nat
deriving DecidableEq, Repr

/-- The zero `time.Time`: January 1, year 1, 00:00:00 UTC. -/
def Time.zero : Time := ⟨1, 1, 1, 0, 0, 0, 0⟩

/-- Go: `type AgentMessage struct`. The field `Type` is spelt `Type_`. -/
structure AgentMessage where
  ID : String
  Timestamp : Time
  From : AgentType
  To : AgentType
  Type_ : MessageType
  Priority : PriorityLevel
  Correlation : String
  Payload : List Byte
deriving DecidableEq, Repr

/-- A handler `func(*AgentMessage)`, represented by the identity of the function value. -/
structure Handler where
  ref : Nat
deriving DecidableEq, Repr

/-- One call `handler(&copiedMsg)` made by the receive loop. -/
structure Invocation where
  handler : Handler
  msg : AgentMessage
deriving DecidableEq, Repr

/-- The map `handlers map[MessageType][]func(*AgentMessage)`. -/
abbrev Registry := List (MessageType × List Handler)

/-- Reading `m[key]`: the stored slice, or the nil slice when the key is missing. -/
def mapGet : Registry → MessageType → List Handler
  | [], _ => []
  | (k, v) :: rest, key => if k = key then v else mapGet rest key

/-- Assigning `m[key] = value`. -/
def mapSet : Registry → MessageType → List Handler → Registry
  | [], key, value => [(key, value)]
  | (k, v) :: rest, key, value =>
    if k = key then (k, value) :: rest else (k, v) :: mapSet rest key value

/-- The connection `socket net.Conn`, seen through the calls the bus has made on it:
the argument of every `Write`, in call order, and the number of `Close` calls. -/
structure Conn where
  written : List (List Byte)
  closeCalls : Nat
deriving DecidableEq, Repr

/-- The connection as `net.Dial` hands it over: no call made yet. -/
def Conn.fresh : Conn := ⟨[], 0⟩

/-- Records the call `socket.Write(data)`. -/
def Conn.Write (s : Conn) (data : List Byte) : Conn :=
  { s with written := s.written ++ [data] }

/-- Records the call `socket.Close()`. -/
def Conn.Close (s : Conn) : Conn :=
  { s with closeCalls := s.closeCalls + 1 }

/-- What `socket.Write(data)` returns: the number of bytes accepted and the error. -/
structure WriteResult where
  n : Nat
  err : Option GoError
deriving DecidableEq, Repr

/-- The contract of `io.Writer`, which `net.Conn` embeds, on what `Write(data)` returns:
"Write must return a non-nil error if it returns n < len(p)". -/
def obeysWriter (data : List Byte) (w : WriteResult) : Prop :=
  w.n < data.length → w.err ≠ none

/-- What `socket.Read(buffer)` returns: the bytes it stored in the buffer and the error. -/
structure ReadResult where
  filled : List Byte
  err : Option GoError
deriving DecidableEq, Repr

/-- The two functions of `encoding/json` the bus calls, on an `AgentMessage`. -/
structure Codec where
  Marshal : AgentMessage → Except GoError (List Byte)
  Unmarshal : List Byte → Except GoError AgentMessage

/-- Go: `type agentBus struct` (without the mutex). -/
structure agentBus where
  socket : Conn
  handlers : Registry
  closed : Bool
deriving DecidableEq, Repr

/-! ## Operations -/

/-- Go `New`, given the outcome of `net.Dial("unix", socketPath)`. The goroutine it starts
is `handleMessages` below. -/
def New (dial : Except GoError Conn) : Except GoError agentBus :=
  match dial with
  | .error err => .error err
  | .ok conn => .ok { handlers := [], socket := conn, closed := false }

/-- The bus `New` returns when dialling succeeded with connection `conn`. -/
def freshBus (conn : Conn) : agentBus := { handlers := [], socket := conn, closed := false }

/-- Go `publish`; `w` is what `a.socket.Write(data)` returns if the call is made. -/
def publish (c : Codec) (a : agentBus) (message : AgentMessage) (w : WriteResult) :
    agentBus × Option GoError :=
  if a.closed then
    (a, some ErrBusClosed)
  else
    match c.Marshal message with
    | .error err => (a, some err)
    | .ok data => ({ a with socket := a.socket.Write data }, w.err)

/-- Go `subscribe`. -/
def subscribe (a : agentBus) (messageType : MessageType) (handler : Handler) :
    agentBus × Option GoError :=
  if a.closed then
    (a, some ErrBusClosed)
  else
    ({ a with handlers :=
        mapSet a.handlers messageType (mapGet a.handlers messageType ++ [handler]) }, none)

/-- The variables of `unsubscribe` whose address is taken: the parameter `handler` and
the range variable `h` (of a given iteration). -/
inductive Var where
  | handler
  | h (iteration : Nat)
deriving DecidableEq, Repr

/-- Go pointer equality `&x == &y` for variables `x` and `y`: two pointers are equal
exactly when they point to the same variable. The values stored play no role. -/
def ptrEq (x y : Var) : Bool := decide (x = y)

/-- The `for i, h := range handlers` loop of `unsubscribe`, from index `i` on: the index
at which `&h == &handler` holds and the loop breaks, if any. -/
def unsubscribeScan : Nat → List Handler → Option Nat
  | _, [] => none
  | i, _ :: rest => if ptrEq (Var.h i) Var.handler then some i else unsubscribeScan (i + 1) rest

/-- Go `unsubscribe`. The argument `handler` is only ever used through its address. -/
def unsubscribe (a : agentBus) (messageType : MessageType) (_handler : Handler) :
    agentBus × Option GoError :=
  if a.closed then
    (a, some ErrBusClosed)
  else
    let handlers := mapGet a.handlers messageType
    match unsubscribeScan 0 handlers with
    | some i =>
      ({ a with handlers :=
          mapSet a.handlers messageType (handlers.take i ++ handlers.drop (i + 1)) }, none)
    | none => (a, none)

/-- Go `close`; `closeErr` is what `a.socket.Close()` returns if the call is made. -/
def close (a : agentBus) (closeErr : Option GoError) : agentBus × Option GoError :=
  if a.closed then
    (a, none)
  else
    ({ closed := true, socket := a.socket.Close, handlers := [] }, closeErr)

/-- The length of the buffer of the receive loop: `make([]byte, 4096)`. -/
def bufferSize : Nat := 4096

/-- The loop `for _, handler := range handlers { handler(&copiedMsg) }`, each call
appended to the log. -/
def dispatch : List Handler → AgentMessage → List Invocation → List Invocation
  | [], _, log => log
  | handler :: rest, copiedMsg, log => dispatch rest copiedMsg (log ++ [⟨handler, copiedMsg⟩])

/-- One pass through the body of the `for` loop of `handleMessages`, the call
`a.socket.Read(buffer)` returning `r`. The result says whether the loop goes on
(`false` after `break`) and gives the log of handler calls. -/
def handleMessagesPass (c : Codec) (a : agentBus) (r : ReadResult) (log : List Invocation) :
    Bool × List Invocation :=
  match r.err with
  | some _ => (false, log)
  | none =>
    let messageData := r.filled.take bufferSize
    match c.Unmarshal messageData with
    | .error _ => (true, log)
    | .ok msg =>
      let copiedMsg := msg
      let handlers := mapGet a.handlers msg.Type_
      (true, dispatch handlers copiedMsg log)

/-- Go `handleMessages` on a bus whose state does not change meanwhile: `reads` are the
results of the successive `Read` calls. The loop ends at the first read error; when the
results run out the loop is waiting in `Read`. -/
def handleMessages (c : Codec) (a : agentBus) : List ReadResult → List Invocation → List Invocation
  | [], log => log
  | r :: rest, log =>
    match handleMessagesPass c a r log with
    | (true, log1) => handleMessages c a rest log1
    | (false, log1) => log1

/-! ## The bus together with its receive loop -/

/-- A call of one of the four operations, with what the connection answers. -/
inductive Call where
  | publish (message : AgentMessage) (w : WriteResult)
  | subscribe (messageType : MessageType) (handler : Handler)
  | unsubscribe (messageType : MessageType) (handler : Handler)
  | close (closeErr : Option GoError)
deriving DecidableEq, Repr

/-- Performs one call on the bus. -/
def performCall (c : Codec) (a : agentBus) : Call → agentBus × Option GoError
  | .publish message w => publish c a message w
  | .subscribe messageType handler => subscribe a messageType handler
  | .unsubscribe messageType handler => unsubscribe a messageType handler
  | .close closeErr => close a closeErr

/-- Performs a sequence of calls and returns the final bus. -/
def performAll (c : Codec) : agentBus → List Call → agentBus
  | a, [] => a
  | a, k :: rest => performAll c (performCall c a k).1 rest

/-- What happens to a running bus: a caller performs a call, or the receive loop
makes one pass, its `Read` returning `r`. -/
inductive Event where
  | call (k : Call)
  | read (r : ReadResult)
deriving DecidableEq, Repr

/-- A bus, the state of its receive loop, and the handler calls made so far. -/
structure System where
  bus : agentBus
  receiving : Bool
  invoked : List Invocation
deriving DecidableEq, Repr

/-- The system right after `New` succeeded with connection `conn`. -/
def System.start (conn : Conn) : System :=
  { bus := freshBus conn, receiving := true, invoked := [] }

/-- One event. A pass of the receive loop only happens while the loop is running. -/
def System.step (c : Codec) (s : System) : Event → System
  | .call k => { s with bus := (performCall c s.bus k).1 }
  | .read r =>
    if s.receiving then
      let p := handleMessagesPass c s.bus r s.invoked
      { s with receiving := p.1, invoked := p.2 }
    else s

/-- A sequence of events. -/
def System.run (c : Codec) : System → List Event → System
  | s, [] => s
  | s, e :: rest => System.run c (s.step c e) rest

/-- How often handler `h` occurs in a log of handler calls. -/
def timesInvoked (h : Handler) (log : List Invocation) : Nat :=
  (log.filter (fun i => decide (i.handler = h))).length

/-- A codec to run the bus on concrete inputs. It stands in for `encoding/json`:
`Marshal` fails on a timestamp whose year is outside 0..9999, as `Time.MarshalJSON`
does, and otherwise the frame is the bytes of the identifier followed by a zero byte
and the payload; `Unmarshal` fails on the empty frame and otherwise yields a
`story.created` envelope carrying the frame as payload. -/
def sampleCodec : Codec where
  Marshal m :=
    if m.Timestamp.year < 0 ∨ 10000 ≤ m.Timestamp.year then
      .error (GoError.foreign "Time.MarshalJSON: year outside of range [0,9999]")
    else
      .ok (m.ID.toList.map (fun ch => Fin.ofNat ch.toNat) ++ [0] ++ m.Payload)
  Unmarshal data :=
    match data with
    | [] => .error (GoError.foreign "unexpected end of JSON input")
    | _ :: _ =>
      .ok { ID := "", Timestamp := Time.zero, From := POAgent, To := DevAgent,
            Type_ := MsgStoryCreated, Priority := HighPriority, Correlation := "",
            Payload := data }

/-! ## Sample data -/

/-- An open bus on a connection on which nothing has been written. -/
def sampleBus : agentBus := { socket := Conn.fresh, handlers := [], closed := false }

/-- The envelope of the tests. -/
def sampleMessage : AgentMessage :=
  { ID := "t1", Timestamp := Time.zero, From := POAgent, To := DevAgent,
    Type_ := MsgStoryCreated, Priority := HighPriority, Correlation := "",
    Payload := [1, 2, 3] }

/-- The sample envelope with a timestamp in the year 10000. -/
def lateMessage : AgentMessage :=
  { sampleMessage with Timestamp := { Time.zero with year := 10000 } }

/-- A second codec to run the receive loop on concrete inputs, standing in for
`encoding/json`: `Unmarshal` fails on the empty frame and otherwise yields a
`story.created` envelope whose priority is the first byte of the frame and whose
payload is the rest; `Marshal` writes the priority byte (taken modulo 256) followed by
the payload. -/
def priorityCodec : Codec where
  Marshal m := .ok (Fin.ofNat m.Priority.toNat :: m.Payload)
  Unmarshal data :=
    match data with
    | [] => .error (GoError.foreign "unexpected end of JSON input")
    | p :: rest =>
      .ok { ID := "", Timestamp := Time.zero, From := POAgent, To := DevAgent,
            Type_ := MsgStoryCreated, Priority := (p.val : Int), Correlation := "",
            Payload := rest }

end Communication

/-!
# The data models (internal/data/models)

A shallow embedding of `dev_task.go`, `sprint.go` and `user_story.go` (package `models`).
A method with a pointer receiver is a function from the value before the call to the
value after it. What `time.Now()` and `rand.Int63()` return is an argument of the
function calling them.
-/

namespace Models

/-- Go: `type TaskType string`. -/
abbrev TaskType := String

def TaskDevelopment : TaskType := "Development"
def TaskTesting : TaskType := "Testing"
def TaskDeployment : TaskType := "Deployment"

/-- Go: `type TaskStatus string`. -/
abbrev TaskStatus := String

def TaskTodo : TaskStatus := "Todo"
def TaskInProgress : TaskStatus := "InProgress"
def TaskDone : TaskStatus := "Done"
def TaskBlocked : TaskStatus := "Blocked"

/-- A `time.Duration`: a number of nanoseconds. -/
abbrev Duration := Int

/-- Go: `time.Hour`. -/
def Hour : Duration := 3600000000000

/-- Go: `type DevTask struct`. The field `Type` is spelt `Type_`. -/
structure DevTask where
  ID : String
  StoryID : String
  Title : String
  Type_ : TaskType
  Estimate : Duration
  Status : TaskStatus
  Assignee : String
  Dependencies : List String
deriving DecidableEq, Repr

/-- Go `Update`. -/
def DevTask.Update (dt : DevTask) (title : String) (taskType : TaskType) (estimate : Duration)
    (assignee : String) : DevTask :=
  { dt with Title := title, Type_ := taskType, Estimate := estimate, Assignee := assignee }

/-- Go `SetStatus`. -/
def DevTask.SetStatus (dt : DevTask) (status : TaskStatus) : DevTask :=
  { dt with Status := status }

/-- The loop `for _, dep := range dt.Dependencies` of `AddDependency`: whether it
reaches the `return` inside, that is, finds a `dep == dependencyID`. -/
def addDependencyScan : List String → String → Bool
  | [], _ => false
  | dep :: rest, dependencyID =>
    if dep = dependencyID then true else addDependencyScan rest dependencyID

/-- Go `AddDependency`. -/
def DevTask.AddDependency (dt : DevTask) (dependencyID : String) : DevTask :=
  if addDependencyScan dt.Dependencies dependencyID then
    dt
  else
    { dt with Dependencies := dt.Dependencies ++ [dependencyID] }

/-- The loop `for i, dep := range dt.Dependencies` of `RemoveDependency`, from index `i`
on: the index at which `dep == dependencyID` holds and the loop breaks, if any. -/
def removeDependencyScan : Nat → List String → String → Option Nat
  | _, [], _ => none
  | i, dep :: rest, dependencyID =>
    if dep = dependencyID then some i else removeDependencyScan (i + 1) rest dependencyID

/-- Go `RemoveDependency`: at the index found, the list becomes
`append(dt.Dependencies[:i], dt.Dependencies[i+1:]...)`. -/
def DevTask.RemoveDependency (dt : DevTask) (dependencyID : String) : DevTask :=
  match removeDependencyScan 0 dt.Dependencies dependencyID with
  | some i =>
    { dt with Dependencies := dt.Dependencies.take i ++ dt.Dependencies.drop (i + 1) }
  | none => dt

/-- A task with three dependencies, the first and the last being the same. -/
def sampleTask : DevTask :=
  { ID := "task-1", StoryID := "story-1", Title := "Implement the bus",
    Type_ := TaskDevelopment, Estimate := 4 * Hour, Status := TaskTodo, Assignee := "dev-1",
    Dependencies := ["a", "b", "a"] }

/-! ### Clock readings and identifiers -/

/-- A clock reading `time.Time`: the instant it denotes, in nanoseconds since the epoch,
which `Before` compares, and its calendar reading, which `Format` prints. -/
structure Time where
  instant : Int
  civil : Communication.Time
deriving DecidableEq, Repr

/-- Go `t.Before(u)`. -/
def Time.Before (t u : Time) : Bool := decide (t.instant < u.instant)

/-- The decimal digits of `n`, padded with zeros on the left to at least `width`
digits, as `Format` prints a numeric field. -/
def padded (n width : Nat) : String :=
  String.mk (List.replicate (width - (Nat.toDigits 10 n).length) '0' ++ Nat.toDigits 10 n)

/-- Go `t.Format("20060102150405.000000")`: year, month, day, hour, minute and second,
then a dot and the microseconds, the nanoseconds being cut off. A negative year is
printed with a minus sign. -/
def formatStamp (t : Time) : String :=
  (if t.civil.year < 0 then "-" else "") ++ padded t.civil.year.natAbs 4
    ++ padded t.civil.month 2 ++ padded t.civil.day 2 ++ padded t.civil.hour 2
    ++ padded t.civil.minute 2 ++ padded t.civil.second 2
    ++ "." ++ padded (t.civil.nanosecond / 1000) 6

/-- Go `strconv.FormatInt(i, 10)` for the non-negative `i` that `rand.Int63()` returns. -/
def FormatInt (i : Nat) : String := String.mk (Nat.toDigits 10 i)

/-- Go `generateIDDT`; `now` is what `time.Now()` returns and `draw` what `rand.Int63()`
returns. -/
def generateIDDT (now : Time) (draw : Nat) : String :=
  "task-" ++ formatStamp now ++ "." ++ FormatInt draw

/-- Go `generateIDUS`; `now` is what `time.Now()` returns and `draw` what `rand.Int63()`
returns. -/
def generateIDUS (now : Time) (draw : Nat) : String :=
  "story-" ++ formatStamp now ++ "." ++ FormatInt draw

/-- Go `generateIDS`; `now` is what `time.Now()` returns and `draw` what `rand.Int63()`
returns. -/
def generateIDS (now : Time) (draw : Nat) : String :=
  "sprint-" ++ formatStamp now ++ "." ++ FormatInt draw

/-- Go `NewDevTask`; `now` and `draw` are the clock reading and the random number that
`generateIDDT` obtains. -/
def NewDevTask (storyID title assignee : String) (now : Time) (draw : Nat) : DevTask :=
  { ID := generateIDDT now draw,
    StoryID := storyID,
    Title := title,
    Type_ := TaskDevelopment,
    Estimate := Hour * 4,
    Status := TaskTodo,
    Assignee := assignee,
    Dependencies := [] }

/-- A call of one of the four methods of a task. -/
inductive TaskCall where
  | Update (title : String) (taskType : TaskType) (estimate : Duration) (assignee : String)
  | SetStatus (status : TaskStatus)
  | AddDependency (dependencyID : String)
  | RemoveDependency (dependencyID : String)
deriving DecidableEq, Repr

/-- Performs one call on a task. -/
def performTaskCall (dt : DevTask) : TaskCall → DevTask
  | .Update title taskType estimate assignee => dt.Update title taskType estimate assignee
  | .SetStatus status => dt.SetStatus status
  | .AddDependency dependencyID => dt.AddDependency dependencyID
  | .RemoveDependency dependencyID => dt.RemoveDependency dependencyID

/-- Performs a sequence of calls on a task. -/
def performTaskCalls : DevTask → List TaskCall → DevTask
  | dt, [] => dt
  | dt, k :: rest => performTaskCalls (performTaskCall dt k) rest

/-! ### The sprint (internal/data/models/sprint.go) -/

/-- Go: `type BurnDownPoint struct`. -/
structure BurnDownPoint where
  Date : Time
  Left : Int
deriving DecidableEq, Repr

/-- Go: `type Sprint struct`. -/
structure Sprint where
  ID : String
  Goal : String
  StartDate : Time
  EndDate : Time
  Velocity : Int
  Committed : List String
  Completed : List String
  BurnDown : List BurnDownPoint
deriving DecidableEq, Repr

/-- Go `NewSprint`; `now` and `draw` are the clock reading and the random number that
`generateIDS` obtains. -/
def NewSprint (goal : String) (startDate endDate : Time) (now : Time) (draw : Nat) : Sprint :=
  { ID := generateIDS now draw,
    Goal := goal,
    StartDate := startDate,
    EndDate := endDate,
    Velocity := 0,
    Committed := [],
    Completed := [],
    BurnDown := [] }

/-- Go `contains`. -/
def contains : List String → String → Bool
  | [], _ => false
  | s :: rest, item => if s = item then true else contains rest item

/-- Go `AddCommittedStory`. -/
def Sprint.AddCommittedStory (s : Sprint) (storyID : String) : Sprint :=
  if !contains s.Committed storyID then
    { s with Committed := s.Committed ++ [storyID] }
  else s

/-- The loop `for i, id := range s.Committed` of `RemoveCommittedStory`, from index `i`
on: the index at which `id == storyID` holds and the loop breaks, if any. -/
def removeCommittedStoryScan : Nat → List String → String → Option Nat
  | _, [], _ => none
  | i, id :: rest, storyID =>
    if id = storyID then some i else removeCommittedStoryScan (i + 1) rest storyID

/-- Go `RemoveCommittedStory`: at the index found, the list becomes
`append(s.Committed[:i], s.Committed[i+1:]...)`. -/
def Sprint.RemoveCommittedStory (s : Sprint) (storyID : String) : Sprint :=
  match removeCommittedStoryScan 0 s.Committed storyID with
  | some i => { s with Committed := s.Committed.take i ++ s.Committed.drop (i + 1) }
  | none => s

/-- Go `AddCompletedStory`. -/
def Sprint.AddCompletedStory (s : Sprint) (storyID : String) : Sprint :=
  if !contains s.Completed storyID then
    { s with Completed := s.Completed ++ [storyID] }
  else s

/-- Go `SetVelocity`. -/
def Sprint.SetVelocity (s : Sprint) (velocity : Int) : Sprint :=
  { s with Velocity := velocity }

/-- Go `AddBurnDownPoint`. -/
def Sprint.AddBurnDownPoint (s : Sprint) (date : Time) (left : Int) : Sprint :=
  { s with BurnDown := s.BurnDown ++ [{ Date := date, Left := left }] }

/-! ### The user story (internal/data/models/user_story.go) -/

/-- Go: `type PriorityLevel string`. -/
abbrev PriorityLevel := String

def PriorityHigh : PriorityLevel := "High"
def PriorityMedium : PriorityLevel := "Medium"
def PriorityLow : PriorityLevel := "Low"

/-- Go: `type StoryStatus string`. -/
abbrev StoryStatus := String

def StoryDraft : StoryStatus := "Draft"
def StoryReady : StoryStatus := "Ready"
def StoryInProgress : StoryStatus := "InProgress"
def StoryDone : StoryStatus := "Done"

/-- Go: `type StoryEstimate struct`. -/
structure StoryEstimate where
  Points : Int
deriving DecidableEq, Repr

/-- Go: `type UserStory struct`. The pointer `Estimate *StoryEstimate` is an `Option`:
`none` is the nil pointer. -/
structure UserStory where
  ID : String
  Title : String
  Description : String
  AcceptanceCriteria : List String
  BusinessValue : Int
  Priority : PriorityLevel
  Status : StoryStatus
  Estimate : Option StoryEstimate
  CreatedAt : Time
  UpdatedAt : Time
deriving DecidableEq, Repr

/-- Go `NewUserStory`. The fields of the literal are evaluated in order: `nowID` and
`draw` are the clock reading and the random number that `generateIDUS` obtains,
`nowCreated` is the `time.Now()` of `CreatedAt` and `nowUpdated` that of `UpdatedAt`. -/
def NewUserStory (title description : String) (nowID : Time) (draw : Nat)
    (nowCreated nowUpdated : Time) : UserStory :=
  { ID := generateIDUS nowID draw,
    Title := title,
    Description := description,
    AcceptanceCriteria := [],
    BusinessValue := 5,
    Priority := PriorityMedium,
    Status := StoryDraft,
    Estimate := some { Points := 0 },
    CreatedAt := nowCreated,
    UpdatedAt := nowUpdated }

/-- Go `Update`; `now` is what `time.Now()` returns. -/
def UserStory.Update (us : UserStory) (title description : String) (priority : PriorityLevel)
    (businessValue : Int) (now : Time) : UserStory :=
  { us with Title := title, Description := description, Priority := priority,
            BusinessValue := businessValue, UpdatedAt := now }

/-- Go `SetStatus`; `now` is what `time.Now()` returns. -/
def UserStory.SetStatus (us : UserStory) (status : StoryStatus) (now : Time) : UserStory :=
  { us with Status := status, UpdatedAt := now }

/-- Go `AddAcceptanceCriterion`; `now` is what `time.Now()` returns. -/
def UserStory.AddAcceptanceCriterion (us : UserStory) (criterion : String) (now : Time) :
    UserStory :=
  { us with AcceptanceCriteria := us.AcceptanceCriteria ++ [criterion], UpdatedAt := now }

/-- Go `SetEstimate`; `now` is what `time.Now()` returns. The assignment
`us.Estimate.Points = points` goes through the pointer: with a nil pointer the call
panics, which is the result `none`. -/
def UserStory.SetEstimate (us : UserStory) (points : Int) (now : Time) : Option UserStory :=
  match us.Estimate with
  | none => none
  | some estimate =>
    some { us with Estimate := some { estimate with Points := points }, UpdatedAt := now }

/-- A call of one of the four methods of a user story, with the clock reading it
obtains. -/
inductive StoryCall where
  | Update (title description : String) (priority : PriorityLevel) (businessValue : Int)
      (now : Time)
  | SetStatus (status : StoryStatus) (now : Time)
  | AddAcceptanceCriterion (criterion : String) (now : Time)
  | SetEstimate (points : Int) (now : Time)
deriving DecidableEq, Repr

/-- The clock reading of a call. -/
def storyCallTime : StoryCall → Time
  | .Update _ _ _ _ now => now
  | .SetStatus _ now => now
  | .AddAcceptanceCriterion _ now => now
  | .SetEstimate _ now => now

/-- Performs one call on a user story; `none` when the call panics. -/
def performStoryCall (us : UserStory) : StoryCall → Option UserStory
  | .Update title description priority businessValue now =>
    some (us.Update title description priority businessValue now)
  | .SetStatus status now => some (us.SetStatus status now)
  | .AddAcceptanceCriterion criterion now => some (us.AddAcceptanceCriterion criterion now)
  | .SetEstimate points now => us.SetEstimate points now

/-- Performs a sequence of calls on a user story; `none` when one of them panics. -/
def performStoryCalls : UserStory → List StoryCall → Option UserStory
  | us, [] => some us
  | us, k :: rest =>
    match performStoryCall us k with
    | none => none
    | some us1 => performStoryCalls us1 rest

/-- Successive clock readings that never decrease. -/
def neverDecreasing (readings : List Time) : Prop :=
  List.Chain' (fun t u => t.instant ≤ u.instant) readings

/-- A clock reading on 1 January 2024 at 00:00:00 UTC plus `nanos` nanoseconds. -/
def sampleTime (nanos : Nat) : Time :=
  { instant := 1704067200000000000 + nanos,
    civil := { year := 2024, month := 1, day := 1, hour := 0, minute := 0, second := 0,
               nanosecond := nanos } }

/-- A sprint with two committed stories, the second of them completed. -/
def sampleSprint : Sprint :=
  { ID := "sprint-1", Goal := "Ship the bus", StartDate := sampleTime 0,
    EndDate := sampleTime 5, Velocity := 0, Committed := ["s1", "s2", "s1"],
    Completed := ["s2"], BurnDown := [] }

end Models

namespace Communication

/-! ## Basic facts about the operations -/

theorem New_ok (conn : Conn) : New (.ok conn) = .ok (freshBus conn) := rfl

theorem unsubscribeScan_none (i : Nat) (handlers : List Handler) :
    unsubscribeScan i handlers = none := by
  induction handlers generalizing i with
  | nil => rfl
  | cons x rest ih =>
    have hne : ptrEq (Var.h i) Var.handler = false := by simp [ptrEq]
    simp [unsubscribeScan, hne, ih]

theorem publish_of_closed (c : Codec) (a : agentBus) (message : AgentMessage) (w : WriteResult)
    (h : a.closed = true) : publish c a message w = (a, some ErrBusClosed) := by
  simp [publish, h]

theorem subscribe_of_closed (a : agentBus) (t : MessageType) (handler : Handler)
    (h : a.closed = true) : subscribe a t handler = (a, some ErrBusClosed) := by
  simp [subscribe, h]

theorem unsubscribe_of_closed (a : agentBus) (t : MessageType) (handler : Handler)
    (h : a.closed = true) : unsubscribe a t handler = (a, some ErrBusClosed) := by
  simp [unsubscribe, h]

theorem unsubscribe_of_open (a : agentBus) (t : MessageType) (handler : Handler)
    (h : a.closed = false) : unsubscribe a t handler = (a, none) := by
  simp [unsubscribe, h, unsubscribeScan_none]

theorem close_of_closed (a : agentBus) (closeErr : Option GoError)
    (h : a.closed = true) : close a closeErr = (a, none) := by
  simp [close, h]

theorem close_closed (a : agentBus) (closeErr : Option GoError) :
    (close a closeErr).1.closed = true := by
  cases h : a.closed <;> simp [close, h]

theorem performCall_of_closed (c : Codec) (a : agentBus) (k : Call) (h : a.closed = true) :
    (performCall c a k).1 = a := by
  cases k <;>
    simp [performCall, publish_of_closed, subscribe_of_closed, unsubscribe_of_closed,
      close_of_closed, h]

theorem performAll_of_closed (c : Codec) (a : agentBus) (calls : List Call)
    (h : a.closed = true) : performAll c a calls = a := by
  induction calls with
  | nil => rfl
  | cons k rest ih => simp [performAll, performCall_of_closed c a k h, ih]

theorem dispatch_eq (handlers : List Handler) (m : AgentMessage) (log : List Invocation) :
    dispatch handlers m log = log ++ handlers.map (fun h => (⟨h, m⟩ : Invocation)) := by
  induction handlers generalizing log with
  | nil => simp [dispatch]
  | cons x rest ih => simp [dispatch, ih]

theorem mapGet_mapSet_same (r : Registry) (t : MessageType) (v : List Handler) :
    mapGet (mapSet r t v) t = v := by
  induction r with
  | nil => simp [mapSet, mapGet]
  | cons p rest ih =>
    obtain ⟨k, w⟩ := p
    by_cases hk : k = t
    · simp [mapSet, mapGet, hk]
    · simp [mapSet, mapGet, hk, ih]

/-! ## The claims -/

/-- C1: once `close` has been called, whatever calls follow, the bus stays in the state
`close` left it in, and `publish`, `subscribe` and `unsubscribe` return `ErrBusClosed`
without changing that state: nothing is written on the connection and the registry
stays as it is. -/
theorem closed_bus_refuses_calls (c : Codec) (a : agentBus) (closeErr : Option GoError)
    (later : List Call) (message : AgentMessage) (w : WriteResult)
    (messageType : MessageType) (handler : Handler) :
    performAll c (close a closeErr).1 later = (close a closeErr).1 ∧
    publish c (performAll c (close a closeErr).1 later) message w
      = (performAll c (close a closeErr).1 later, some ErrBusClosed) ∧
    subscribe (performAll c (close a closeErr).1 later) messageType handler
      = (performAll c (close a closeErr).1 later, some ErrBusClosed) ∧
    unsubscribe (performAll c (close a closeErr).1 later) messageType handler
      = (performAll c (close a closeErr).1 later, some ErrBusClosed) ∧
    (publish c (performAll c (close a closeErr).1 later) message w).1.socket.written
      = (close a closeErr).1.socket.written ∧
    (subscribe (performAll c (close a closeErr).1 later) messageType handler).1.handlers
      = (close a closeErr).1.handlers ∧
    (unsubscribe (performAll c (close a closeErr).1 later) messageType handler).1.handlers
      = (close a closeErr).1.handlers := by
  have hc := close_closed a closeErr
  have hb := performAll_of_closed c (close a closeErr).1 later hc
  rw [hb]
  simp [publish_of_closed, subscribe_of_closed, unsubscribe_of_closed, hc]

/-- C2, evaluated on the code: on a fresh bus, after `subscribe(t, h)` the call
`unsubscribe(t, h)` returns nil and removes nothing: `h` is still the one entry of the
list of `t`. -/
theorem unsubscribe_keeps_registered_handler (conn : Conn) (t : MessageType) (h : Handler) :
    mapGet (subscribe (freshBus conn) t h).1.handlers t = [h] ∧
    unsubscribe (subscribe (freshBus conn) t h).1 t h
      = ((subscribe (freshBus conn) t h).1, none) ∧
    mapGet (unsubscribe (subscribe (freshBus conn) t h).1 t h).1.handlers t = [h] := by
  have hs : (subscribe (freshBus conn) t h).1 = ⟨conn, [(t, [h])], false⟩ := by
    simp [subscribe, freshBus, mapSet, mapGet]
  rw [hs, unsubscribe_of_open _ _ _ rfl]
  simp [mapGet]

/-- C3, evaluated on the code: scenario B. On a fresh bus, after `subscribe(t, h)`, a
first frame of type `t`, `unsubscribe(t, h)` and a second frame of type `t`, the
handler `h` has been called for both frames: twice, not once. -/
theorem scenario_B_handler_called_twice (c : Codec) (conn : Conn) (t : MessageType)
    (h : Handler) (r1 r2 : ReadResult) (e1 e2 : AgentMessage)
    (hr1 : r1.err = none) (hr2 : r2.err = none)
    (hd1 : c.Unmarshal (r1.filled.take bufferSize) = .ok e1)
    (hd2 : c.Unmarshal (r2.filled.take bufferSize) = .ok e2)
    (ht1 : e1.Type_ = t) (ht2 : e2.Type_ = t) :
    (System.run c (System.start conn)
      [.call (.subscribe t h), .read r1, .call (.unsubscribe t h), .read r2]).invoked
      = [⟨h, e1⟩, ⟨h, e2⟩] ∧
    timesInvoked h (System.run c (System.start conn)
      [.call (.subscribe t h), .read r1, .call (.unsubscribe t h), .read r2]).invoked = 2 := by
  subst ht1
  have hrun : (System.run c (System.start conn)
      [.call (.subscribe e1.Type_ h), .read r1, .call (.unsubscribe e1.Type_ h),
        .read r2]).invoked = [⟨h, e1⟩, ⟨h, e2⟩] := by
    simp [System.run, System.step, System.start, freshBus, performCall, subscribe, unsubscribe,
      unsubscribeScan_none, handleMessagesPass, hr1, hr2, hd1, hd2, ht2, mapGet, mapSet,
      dispatch]
  rw [hrun]
  exact ⟨rfl, by simp [timesInvoked]⟩

/-- Scenario B run with the sample codec and two one-byte frames. -/
theorem scenario_B_handler_called_twice_witness :
    timesInvoked ⟨7⟩ (System.run sampleCodec (System.start Conn.fresh)
      [.call (.subscribe MsgStoryCreated ⟨7⟩), .read ⟨[1], none⟩,
        .call (.unsubscribe MsgStoryCreated ⟨7⟩), .read ⟨[2], none⟩]).invoked = 2 :=
  (scenario_B_handler_called_twice sampleCodec Conn.fresh MsgStoryCreated ⟨7⟩
    ⟨[1], none⟩ ⟨[2], none⟩
    { ID := "", Timestamp := Time.zero, From := POAgent, To := DevAgent,
      Type_ := MsgStoryCreated, Priority := HighPriority, Correlation := "", Payload := [1] }
    { ID := "", Timestamp := Time.zero, From := POAgent, To := DevAgent,
      Type_ := MsgStoryCreated, Priority := HighPriority, Correlation := "", Payload := [2] }
    rfl rfl rfl rfl rfl rfl).2

/-- C4, evaluated on the code: on a fresh bus, after `subscribe(m.Type, h)` the call
`publish(m)` leaves `h` registered for the type of `m` and calls no handler at all,
whatever the write returns. -/
theorem publish_calls_no_handler (c : Codec) (conn : Conn) (h : Handler) (m : AgentMessage)
    (w : WriteResult) :
    mapGet (System.run c (System.start conn)
      [.call (.subscribe m.Type_ h), .call (.publish m w)]).bus.handlers m.Type_ = [h] ∧
    (System.run c (System.start conn)
      [.call (.subscribe m.Type_ h), .call (.publish m w)]).invoked = [] := by
  constructor
  · simp only [System.run, System.step, System.start, freshBus, performCall, subscribe, Bool.false_eq_true,
      if_false, mapGet, mapSet, List.nil_append, publish]
    cases c.Marshal m <;> simp [mapGet]
  · simp [System.run, System.step, System.start]

/-- C5: a pass of the receive loop whose read succeeds and whose frame decodes to `e`
goes on, and adds to the log exactly one call per entry of the list registered for the
type of `e`, in the order of the list, each with `e`; so every handler called is
registered for that type, and is called as often as it is in the list. -/
theorem receive_pass_calls_registered_handlers (c : Codec) (a : agentBus) (r : ReadResult)
    (log : List Invocation) (e : AgentMessage)
    (hr : r.err = none) (hd : c.Unmarshal (r.filled.take bufferSize) = .ok e) :
    handleMessagesPass c a r log
      = (true, log ++ (mapGet a.handlers e.Type_).map (fun h => (⟨h, e⟩ : Invocation))) ∧
    (∀ i ∈ (mapGet a.handlers e.Type_).map (fun h => (⟨h, e⟩ : Invocation)),
      i.handler ∈ mapGet a.handlers e.Type_ ∧ i.msg = e) ∧
    (∀ h, timesInvoked h ((mapGet a.handlers e.Type_).map (fun h => (⟨h, e⟩ : Invocation)))
      = (mapGet a.handlers e.Type_).count h) := by
  refine ⟨?_, ?_, ?_⟩
  · simp [handleMessagesPass, hr, hd, dispatch_eq]
  · intro i hi
    obtain ⟨x, hx, rfl⟩ := List.mem_map.1 hi
    exact ⟨hx, rfl⟩
  · intro h
    generalize mapGet a.handlers e.Type_ = hs
    induction hs with
    | nil => simp [timesInvoked]
    | cons x rest ih =>
      simp only [timesInvoked] at ih
      by_cases hx : x = h
      · simp [timesInvoked, List.filter_cons, hx, ih]
      · simp [timesInvoked, List.filter_cons, hx, ih, List.count_cons]

/-- A pass of the receive loop on a bus with handlers 1 and 2 registered for
`story.created` and handler 3 for `error`: a frame of type `story.created` calls 1,
then 2, and not 3. -/
theorem receive_pass_calls_registered_handlers_witness :
    handleMessagesPass sampleCodec
      ⟨Conn.fresh, [(MsgStoryCreated, [⟨1⟩, ⟨2⟩]), (MsgError, [⟨3⟩])], false⟩ ⟨[9], none⟩ []
      = (true, [⟨⟨1⟩, { sampleMessage with ID := "", Payload := [9] }⟩,
                ⟨⟨2⟩, { sampleMessage with ID := "", Payload := [9] }⟩]) :=
  (receive_pass_calls_registered_handlers sampleCodec
    ⟨Conn.fresh, [(MsgStoryCreated, [⟨1⟩, ⟨2⟩]), (MsgError, [⟨3⟩])], false⟩ ⟨[9], none⟩ []
    { sampleMessage with ID := "", Payload := [9] } rfl rfl).1

/-- C6 as stated fails: on an open bus, publishing the envelope stamped with the year
10000 performs no write at all, because encoding it fails. -/
theorem publish_open_bus_without_write :
    sampleBus.closed = false ∧
    (publish sampleCodec sampleBus lateMessage ⟨0, none⟩).1.socket.written = [] ∧
    (publish sampleCodec sampleBus lateMessage ⟨0, none⟩).2
      = some (GoError.foreign "Time.MarshalJSON: year outside of range [0,9999]") ∧
    ¬ ∃ data, (publish sampleCodec sampleBus lateMessage ⟨0, none⟩).1.socket.written
      = sampleBus.socket.written ++ [data] := by
  refine ⟨rfl, by decide, by decide, ?_⟩
  rintro ⟨data, hdata⟩
  have hw : (publish sampleCodec sampleBus lateMessage ⟨0, none⟩).1.socket.written = [] := by
    decide
  rw [hw] at hdata
  simp [sampleBus, Conn.fresh] at hdata

/-- C6, amended: `publish` on a closed bus performs no write; on an open bus, for an
envelope that encodes to `data`, it performs exactly one write, of `data`; on an open
bus, for an envelope whose encoding fails, it performs no write and returns the
encoding error. -/
theorem publish_writes_encoded_frame_once (c : Codec) (a : agentBus) (m : AgentMessage)
    (w : WriteResult) :
    (a.closed = true → (publish c a m w).1.socket.written = a.socket.written) ∧
    (∀ data, a.closed = false → c.Marshal m = .ok data →
      (publish c a m w).1.socket.written = a.socket.written ++ [data]) ∧
    (∀ err, a.closed = false → c.Marshal m = .error err →
      publish c a m w = (a, some err)) := by
  refine ⟨?_, ?_, ?_⟩
  · intro h
    simp [publish, h]
  · intro data h hm
    simp [publish, h, hm, Conn.Write]
  · intro err h hm
    simp [publish, h, hm]

/-- The three cases of `publish` on sample data: the closed bus, the open bus with the
sample envelope, the open bus with the envelope that does not encode. -/
theorem publish_writes_encoded_frame_once_witness :
    (publish sampleCodec { sampleBus with closed := true } sampleMessage ⟨6, none⟩).1.socket.written
      = [] ∧
    (publish sampleCodec sampleBus sampleMessage ⟨6, none⟩).1.socket.written
      = [[116, 49, 0, 1, 2, 3]] ∧
    publish sampleCodec sampleBus lateMessage ⟨6, none⟩
      = (sampleBus, some (GoError.foreign "Time.MarshalJSON: year outside of range [0,9999]")) :=
  ⟨(publish_writes_encoded_frame_once sampleCodec { sampleBus with closed := true }
      sampleMessage ⟨6, none⟩).1 rfl,
   (publish_writes_encoded_frame_once sampleCodec sampleBus sampleMessage ⟨6, none⟩).2.1
      [116, 49, 0, 1, 2, 3] rfl rfl,
   (publish_writes_encoded_frame_once sampleCodec sampleBus lateMessage ⟨6, none⟩).2.2
      (GoError.foreign "Time.MarshalJSON: year outside of range [0,9999]") rfl rfl⟩

/-- C7: on an open bus whose connection keeps the contract of `io.Writer` (a write that
accepts fewer bytes than it was given reports an error), for an envelope that encodes
to `data`: if the write fails, or accepts fewer bytes than `data` has, `publish`
returns an error, namely the error of the write; and whenever `publish` returns nil the
envelope did encode, the frame was handed to `Write` and all of its bytes were
accepted. -/
theorem publish_reports_failed_or_short_write (c : Codec) (a : agentBus) (m : AgentMessage)
    (w : WriteResult) (ho : a.closed = false)
    (hw : ∀ data, c.Marshal m = .ok data → obeysWriter data w) :
    (∀ data, c.Marshal m = .ok data → (w.err ≠ none ∨ w.n < data.length) →
      (publish c a m w).2 ≠ none ∧ (publish c a m w).2 = w.err) ∧
    ((publish c a m w).2 = none → ∃ data, c.Marshal m = .ok data ∧ data.length ≤ w.n ∧
      (publish c a m w).1.socket.written = a.socket.written ++ [data]) := by
  constructor
  · intro data hm hfail
    have hp : (publish c a m w).2 = w.err := by simp [publish, ho, hm]
    refine ⟨?_, hp⟩
    rw [hp]
    rcases hfail with he | hshort
    · exact he
    · exact hw data hm hshort
  · intro hnil
    cases hm : c.Marshal m with
    | error err =>
      have hp : (publish c a m w).2 = some err := by simp [publish, ho, hm]
      rw [hp] at hnil
      cases hnil
    | ok data =>
      have hp : (publish c a m w).2 = w.err := by simp [publish, ho, hm]
      have hwritten : (publish c a m w).1.socket.written = a.socket.written ++ [data] := by
        simp [publish, ho, hm, Conn.Write]
      refine ⟨data, rfl, ?_, hwritten⟩
      by_contra hlt
      exact hw data hm (Nat.lt_of_not_le hlt) (hp.symm.trans hnil)

/-- The sample envelope, which encodes to six bytes, on the sample bus: a write that
accepts two bytes and reports a broken pipe makes `publish` return that error; a write
that accepts all six bytes without error makes `publish` return nil after one write of
the frame. -/
theorem publish_reports_failed_or_short_write_witness :
    (publish sampleCodec sampleBus sampleMessage ⟨2, some (GoError.foreign "broken pipe")⟩).2
      = some (GoError.foreign "broken pipe") ∧
    (publish sampleCodec sampleBus sampleMessage ⟨6, none⟩).2 = none ∧
    ∃ data, sampleCodec.Marshal sampleMessage = .ok data ∧ data.length ≤ 6 ∧
      (publish sampleCodec sampleBus sampleMessage ⟨6, none⟩).1.socket.written
        = sampleBus.socket.written ++ [data] :=
  ⟨((publish_reports_failed_or_short_write sampleCodec sampleBus sampleMessage
      ⟨2, some (GoError.foreign "broken pipe")⟩ rfl
      (fun _ _ _ h => Option.noConfusion h)).1 [116, 49, 0, 1, 2, 3] rfl
      (Or.inr (by decide))).2,
   rfl,
   (publish_reports_failed_or_short_write sampleCodec sampleBus sampleMessage ⟨6, none⟩ rfl
      (fun data hd hlt => by
        have hdata : ([116, 49, 0, 1, 2, 3] : List Byte) = data := Except.ok.inj hd
        subst hdata
        exact absurd hlt (by decide))).2 rfl⟩

/-- C8: a second `close` after a first one returns nil and changes nothing: the bus is
exactly as the first call left it, the connection is not closed again, the bus is
closed, and the registry is empty if the bus was open before the first call. -/
theorem close_twice (a : agentBus) (err1 err2 : Option GoError) :
    close (close a err1).1 err2 = ((close a err1).1, none) ∧
    (close (close a err1).1 err2).1.socket.closeCalls = (close a err1).1.socket.closeCalls ∧
    (close (close a err1).1 err2).1.closed = true ∧
    (close (close a err1).1 err2).1.handlers = (close a err1).1.handlers ∧
    (a.closed = true ∨ (close (close a err1).1 err2).1.handlers = []) := by
  have hc := close_closed a err1
  have h2 := close_of_closed (close a err1).1 err2 hc
  rw [h2]
  refine ⟨rfl, rfl, hc, rfl, ?_⟩
  cases h : a.closed
  · right
    simp [close, h]
  · left
    rfl

/-- C9 as stated fails: on an open bus whose connection reports an error on `Close`,
`close` returns that error. -/
theorem close_returns_error :
    sampleBus.closed = false ∧
    (close sampleBus (some (GoError.foreign "close failed"))).2
      = some (GoError.foreign "close failed") ∧
    (close sampleBus (some (GoError.foreign "close failed"))).2 ≠ none := by
  refine ⟨rfl, by decide, by decide⟩

/-- C9, amended: `close` returns nil on a bus that is already closed, and on an open
bus exactly what `Close` of the connection returns: nil when that succeeds, its error
otherwise. -/
theorem close_returns_close_result (a : agentBus) (closeErr : Option GoError) :
    (close a closeErr).2 = if a.closed then none else closeErr := by
  cases h : a.closed <;> simp [close, h]

/-- C10: the first `close` of an open bus marks the bus closed, calls `Close` on the
connection exactly once without writing on it, and empties the registry, so that no
type has a handler, whatever `Close` returns. -/
theorem first_close (a : agentBus) (closeErr : Option GoError) (ho : a.closed = false) :
    (close a closeErr).1.closed = true ∧
    (close a closeErr).1.socket.closeCalls = a.socket.closeCalls + 1 ∧
    (close a closeErr).1.socket.written = a.socket.written ∧
    (close a closeErr).1.handlers = [] ∧
    (∀ t, mapGet (close a closeErr).1.handlers t = []) := by
  have hc : (close a closeErr).1 = ⟨a.socket.Close, [], true⟩ := by
    simp [close, ho]
  rw [hc]
  refine ⟨rfl, rfl, rfl, rfl, ?_⟩
  intro t
  rfl

/-- The first `close` of an open bus with two handlers registered, on a connection
whose `Close` reports an error. -/
theorem first_close_witness :
    (close ⟨Conn.fresh, [(MsgStoryCreated, [⟨1⟩, ⟨2⟩])], false⟩
      (some (GoError.foreign "close failed"))).1.closed = true ∧
    (close ⟨Conn.fresh, [(MsgStoryCreated, [⟨1⟩, ⟨2⟩])], false⟩
      (some (GoError.foreign "close failed"))).1.socket.closeCalls = 1 ∧
    (close ⟨Conn.fresh, [(MsgStoryCreated, [⟨1⟩, ⟨2⟩])], false⟩
      (some (GoError.foreign "close failed"))).1.handlers = [] :=
  have h := first_close ⟨Conn.fresh, [(MsgStoryCreated, [⟨1⟩, ⟨2⟩])], false⟩
    (some (GoError.foreign "close failed")) rfl
  ⟨h.1, h.2.1, h.2.2.2.1⟩

/-! ## More facts about the registry and the receive loop -/

theorem mapGet_mapSet_other (r : Registry) (t t' : MessageType) (v : List Handler)
    (hne : t' ≠ t) : mapGet (mapSet r t v) t' = mapGet r t' := by
  have hne2 : ¬ t = t' := fun h => hne h.symm
  induction r with
  | nil => simp [mapSet, mapGet, hne2]
  | cons p rest ih =>
    obtain ⟨k, w⟩ := p
    by_cases hk : k = t
    · subst hk
      simp [mapSet, mapGet, hne2]
    · by_cases hk3 : k = t'
      · subst hk3
        simp [mapSet, mapGet, hk]
      · simp [mapSet, mapGet, hk, hk3, ih]

theorem subscribe_of_open (a : agentBus) (t : MessageType) (handler : Handler)
    (h : a.closed = false) :
    subscribe a t handler
      = ({ a with handlers := mapSet a.handlers t (mapGet a.handlers t ++ [handler]) }, none) := by
  simp [subscribe, h]

theorem performAll_subscribe_replicate (c : Codec) (t : MessageType) (h : Handler) (k : Nat) :
    ∀ a : agentBus, a.closed = false →
      (performAll c a (List.replicate k (Call.subscribe t h))).closed = false ∧
      mapGet (performAll c a (List.replicate k (Call.subscribe t h))).handlers t
        = mapGet a.handlers t ++ List.replicate k h := by
  induction k with
  | zero =>
    intro a ho
    simp [performAll, ho]
  | succ n ih =>
    intro a ho
    have hstep : (performCall c a (Call.subscribe t h)).1
        = { a with handlers := mapSet a.handlers t (mapGet a.handlers t ++ [h]) } := by
      simp [performCall, subscribe_of_open a t h ho]
    have hrec := ih { a with handlers := mapSet a.handlers t (mapGet a.handlers t ++ [h]) } ho
    simp only [List.replicate_succ, performAll, hstep]
    refine ⟨hrec.1, ?_⟩
    rw [hrec.2, mapGet_mapSet_same]
    simp [List.replicate_succ]

theorem timesInvoked_map (h : Handler) (e : AgentMessage) (hs : List Handler) :
    timesInvoked h (hs.map (fun x => (⟨x, e⟩ : Invocation))) = hs.count h := by
  induction hs with
  | nil => simp [timesInvoked]
  | cons x rest ih =>
    simp only [timesInvoked] at ih
    by_cases hx : x = h
    · simp [timesInvoked, List.filter_cons, hx, ih]
    · simp [timesInvoked, List.filter_cons, hx, ih, List.count_cons]

theorem handleMessagesPass_of_read_error (c : Codec) (a : agentBus) (r : ReadResult)
    (log : List Invocation) (err : GoError) (hr : r.err = some err) :
    handleMessagesPass c a r log = (false, log) := by
  simp [handleMessagesPass, hr]

theorem handleMessagesPass_of_decode_error (c : Codec) (a : agentBus) (r : ReadResult)
    (log : List Invocation) (err : GoError) (hr : r.err = none)
    (hd : c.Unmarshal (r.filled.take bufferSize) = .error err) :
    handleMessagesPass c a r log = (true, log) := by
  simp [handleMessagesPass, hr, hd]

theorem handleMessagesPass_of_frame (c : Codec) (a : agentBus) (r : ReadResult)
    (log : List Invocation) (e : AgentMessage) (hr : r.err = none)
    (hd : c.Unmarshal (r.filled.take bufferSize) = .ok e) :
    handleMessagesPass c a r log
      = (true, log ++ (mapGet a.handlers e.Type_).map (fun h => (⟨h, e⟩ : Invocation))) := by
  simp [handleMessagesPass, hr, hd, dispatch_eq]

theorem handleMessages_until_read_error (c : Codec) (a : agentBus) (r : ReadResult)
    (err : GoError) (hr : r.err = some err) (after : List ReadResult) :
    ∀ (before : List ReadResult) (log : List Invocation),
      handleMessages c a (before ++ r :: after) log = handleMessages c a before log := by
  intro before
  induction before with
  | nil =>
    intro log
    simp [handleMessages, handleMessagesPass_of_read_error c a r log err hr]
  | cons x rest ih =>
    intro log
    simp only [List.cons_append, handleMessages]
    cases hp : handleMessagesPass c a x log with
    | mk go log1 =>
      cases go
      · rfl
      · exact ih log1

theorem System.run_of_stopped (c : Codec) (events : List Event) :
    ∀ s : System, s.receiving = false →
      (System.run c s events).receiving = false ∧
      (System.run c s events).invoked = s.invoked := by
  induction events with
  | nil =>
    intro s hs
    exact ⟨hs, rfl⟩
  | cons e rest ih =>
    intro s hs
    cases e with
    | call k =>
      have h := ih { s with bus := (performCall c s.bus k).1 } hs
      simpa [System.run, System.step] using h
    | read r =>
      have h := ih s hs
      simpa [System.run, System.step, hs] using h

/-! ## The claims, continued -/

/-- C11: on an open bus `subscribe(t, h)` returns nil, makes the list of `t` the old
list with `h` appended at the end and leaves the lists of the other types as they
are. Nothing is deduplicated: after `k` calls `subscribe(t, h)` the list of `t` is the
old list followed by `k` entries `h`, and a frame of type `t` then calls `h` once for
each of them: `k` times, plus once for each entry `h` the old list had. -/
theorem subscribe_appends_without_dedup (c : Codec) (a : agentBus) (t : MessageType)
    (h : Handler) (k : Nat) (r : ReadResult) (e : AgentMessage) (ho : a.closed = false)
    (hr : r.err = none) (hd : c.Unmarshal (r.filled.take bufferSize) = .ok e)
    (ht : e.Type_ = t) :
    (subscribe a t h).2 = none ∧
    mapGet (subscribe a t h).1.handlers t = mapGet a.handlers t ++ [h] ∧
    (∀ t', t' ≠ t → mapGet (subscribe a t h).1.handlers t' = mapGet a.handlers t') ∧
    mapGet (performAll c a (List.replicate k (Call.subscribe t h))).handlers t
      = mapGet a.handlers t ++ List.replicate k h ∧
    (handleMessagesPass c (performAll c a (List.replicate k (Call.subscribe t h))) r []).2
      = (mapGet a.handlers t ++ List.replicate k h).map (fun x => (⟨x, e⟩ : Invocation)) ∧
    timesInvoked h
      (handleMessagesPass c (performAll c a (List.replicate k (Call.subscribe t h))) r []).2
      = (mapGet a.handlers t).count h + k := by
  have hk := (performAll_subscribe_replicate c t h k a ho).2
  have hpass : (handleMessagesPass c
      (performAll c a (List.replicate k (Call.subscribe t h))) r []).2
      = (mapGet a.handlers t ++ List.replicate k h).map (fun x => (⟨x, e⟩ : Invocation)) := by
    rw [handleMessagesPass_of_frame c _ r [] e hr hd, ht, hk]
    simp
  refine ⟨?_, ?_, ?_, hk, hpass, ?_⟩
  · simp [subscribe_of_open a t h ho]
  · simp [subscribe_of_open a t h ho, mapGet_mapSet_same]
  · intro t' hne
    simp [subscribe_of_open a t h ho, mapGet_mapSet_other _ _ _ _ hne]
  · rw [hpass, timesInvoked_map]
    simp [List.count_replicate_self]

/-- Three calls `subscribe("story.created", 7)` on a fresh bus, then one frame: the
handler is called three times. -/
theorem subscribe_appends_without_dedup_witness :
    timesInvoked ⟨7⟩
      (handleMessagesPass sampleCodec
        (performAll sampleCodec sampleBus
          (List.replicate 3 (Call.subscribe MsgStoryCreated ⟨7⟩))) ⟨[9], none⟩ []).2 = 3 :=
  (subscribe_appends_without_dedup sampleCodec sampleBus MsgStoryCreated ⟨7⟩ 3 ⟨[9], none⟩
    { sampleMessage with ID := "", Payload := [9] } rfl rfl rfl rfl).2.2.2.2.2

/-- C12: on an open bus, `unsubscribe(t, h)` for a handler `h` that is not in the list
of `t` returns nil and leaves the bus, and so the whole registry, unchanged. -/
theorem unsubscribe_unregistered_handler (a : agentBus) (t : MessageType) (h : Handler)
    (ho : a.closed = false) (_hn : h ∉ mapGet a.handlers t) :
    unsubscribe a t h = (a, none) ∧
    (unsubscribe a t h).1.handlers = a.handlers := by
  rw [unsubscribe_of_open a t h ho]
  exact ⟨rfl, rfl⟩

/-- Unsubscribing handler 5 from `error`, a type without any registration, and from
`story.created`, where only handler 1 is registered. -/
theorem unsubscribe_unregistered_handler_witness :
    unsubscribe ⟨Conn.fresh, [(MsgStoryCreated, [⟨1⟩])], false⟩ MsgError ⟨5⟩
      = (⟨Conn.fresh, [(MsgStoryCreated, [⟨1⟩])], false⟩, none) ∧
    unsubscribe ⟨Conn.fresh, [(MsgStoryCreated, [⟨1⟩])], false⟩ MsgStoryCreated ⟨5⟩
      = (⟨Conn.fresh, [(MsgStoryCreated, [⟨1⟩])], false⟩, none) :=
  ⟨(unsubscribe_unregistered_handler ⟨Conn.fresh, [(MsgStoryCreated, [⟨1⟩])], false⟩
      MsgError ⟨5⟩ rfl (by decide)).1,
   (unsubscribe_unregistered_handler ⟨Conn.fresh, [(MsgStoryCreated, [⟨1⟩])], false⟩
      MsgStoryCreated ⟨5⟩ rfl (by decide)).1⟩

/-- C13: a pass of the receive loop whose frame does not decode calls no handler and
leaves the loop running: the log is unchanged, the loop goes on with the remaining
reads as if the frame had not been there, and a following frame that decodes to `e` is
dispatched to the handlers of the type of `e`. -/
theorem undecodable_frame_is_skipped (c : Codec) (a : agentBus) (r : ReadResult)
    (err : GoError) (log : List Invocation) (rest : List ReadResult)
    (r2 : ReadResult) (e : AgentMessage) (s : System)
    (hr : r.err = none) (hd : c.Unmarshal (r.filled.take bufferSize) = .error err)
    (hr2 : r2.err = none) (hd2 : c.Unmarshal (r2.filled.take bufferSize) = .ok e)
    (hs : s.receiving = true) :
    handleMessagesPass c a r log = (true, log) ∧
    handleMessages c a (r :: rest) log = handleMessages c a rest log ∧
    handleMessages c a [r, r2] log
      = log ++ (mapGet a.handlers e.Type_).map (fun h => (⟨h, e⟩ : Invocation)) ∧
    (s.step c (.read r)).invoked = s.invoked ∧
    (s.step c (.read r)).receiving = true := by
  have hp := handleMessagesPass_of_decode_error c a r log err hr hd
  have hp2 := handleMessagesPass_of_frame c a r2 log e hr2 hd2
  refine ⟨hp, ?_, ?_, ?_, ?_⟩
  · simp [handleMessages, hp]
  · simp [handleMessages, hp, hp2]
  · simp [System.step, hs, handleMessagesPass_of_decode_error c s.bus r s.invoked err hr hd]
  · simp [System.step, hs, handleMessagesPass_of_decode_error c s.bus r s.invoked err hr hd]

/-- An empty frame, which the sample codec rejects, followed by a frame it decodes, on
a bus with handler 1 registered for `story.created`: handler 1 is called once, for the
second frame. -/
theorem undecodable_frame_is_skipped_witness :
    handleMessages sampleCodec ⟨Conn.fresh, [(MsgStoryCreated, [⟨1⟩])], false⟩
      [⟨[], none⟩, ⟨[9], none⟩] []
      = [⟨⟨1⟩, { sampleMessage with ID := "", Payload := [9] }⟩] :=
  (undecodable_frame_is_skipped sampleCodec ⟨Conn.fresh, [(MsgStoryCreated, [⟨1⟩])], false⟩
    ⟨[], none⟩ (GoError.foreign "unexpected end of JSON input") [] [] ⟨[9], none⟩
    { sampleMessage with ID := "", Payload := [9] } (System.start Conn.fresh)
    rfl rfl rfl rfl rfl).2.2.1

/-- C14: a read that returns an error ends the receive loop for good. The pass calls no
handler and leaves the loop; whatever the reads before and after it, the loop does
what it does on the reads before it alone; and in the running system, whatever calls
and read results follow, the loop stays stopped and no handler is called any more. -/
theorem read_error_ends_receive_loop (c : Codec) (a : agentBus) (r : ReadResult)
    (err : GoError) (log : List Invocation) (before after : List ReadResult)
    (s : System) (events : List Event) (hr : r.err = some err) :
    handleMessagesPass c a r log = (false, log) ∧
    handleMessages c a (before ++ r :: after) log = handleMessages c a before log ∧
    (s.step c (.read r)).invoked = s.invoked ∧
    (System.run c (s.step c (.read r)) events).receiving = false ∧
    (System.run c (s.step c (.read r)) events).invoked = s.invoked := by
  have hp := handleMessagesPass_of_read_error c a r log err hr
  have hstop : (s.step c (.read r)).receiving = false := by
    cases hrec : s.receiving <;>
      simp [System.step, hrec, handleMessagesPass_of_read_error c s.bus r s.invoked err hr]
  have hinv : (s.step c (.read r)).invoked = s.invoked := by
    cases hrec : s.receiving <;>
      simp [System.step, hrec, handleMessagesPass_of_read_error c s.bus r s.invoked err hr]
  have hrun := System.run_of_stopped c events (s.step c (.read r)) hstop
  exact ⟨hp, handleMessages_until_read_error c a r err hr after before log, hinv, hrun.1,
    hrun.2.trans hinv⟩

/-- A read error between two frames that decode, on a bus with handler 1 registered for
`story.created`: handler 1 is called for the first frame only. -/
theorem read_error_ends_receive_loop_witness :
    handleMessages sampleCodec ⟨Conn.fresh, [(MsgStoryCreated, [⟨1⟩])], false⟩
      ([⟨[8], none⟩] ++ ⟨[], some (GoError.foreign "EOF")⟩ :: [⟨[9], none⟩]) []
      = handleMessages sampleCodec ⟨Conn.fresh, [(MsgStoryCreated, [⟨1⟩])], false⟩
          [⟨[8], none⟩] [] :=
  (read_error_ends_receive_loop sampleCodec ⟨Conn.fresh, [(MsgStoryCreated, [⟨1⟩])], false⟩
    ⟨[], some (GoError.foreign "EOF")⟩ (GoError.foreign "EOF") [] [⟨[8], none⟩] [⟨[9], none⟩]
    (System.start Conn.fresh) [] rfl).2.1

/-- C16: on an open bus, whatever the write returns, `publish` calls `Write` at most
once (exactly once, with the encoding of the envelope as handed in, when the envelope
encodes) and never `Close`, leaves the bus open and leaves the registry as it is. The
envelope is only read: it is passed as a value to the encoder. -/
theorem publish_single_attempt (c : Codec) (a : agentBus) (m : AgentMessage) (w : WriteResult)
    (ho : a.closed = false) :
    (publish c a m w).1.closed = false ∧
    (publish c a m w).1.handlers = a.handlers ∧
    (publish c a m w).1.socket.closeCalls = a.socket.closeCalls ∧
    (∃ extra, (publish c a m w).1.socket.written = a.socket.written ++ extra ∧
      extra.length ≤ 1) ∧
    (∀ data, c.Marshal m = .ok data →
      (publish c a m w).1.socket.written = a.socket.written ++ [data]) := by
  cases hm : c.Marshal m with
  | error err =>
    have hp : publish c a m w = (a, some err) := by simp [publish, ho, hm]
    rw [hp]
    refine ⟨ho, rfl, rfl, ⟨[], by simp, by simp⟩, ?_⟩
    intro data hdata
    cases hdata
  | ok data =>
    have hp : publish c a m w = ({ a with socket := a.socket.Write data }, w.err) := by
      simp [publish, ho, hm]
    rw [hp]
    refine ⟨ho, rfl, rfl, ⟨[data], rfl, by simp⟩, ?_⟩
    intro data2 hdata
    cases hdata
    rfl

/-- A failed write on the sample bus with one handler registered: one write has been
attempted, the bus is still open and the registry is as before. -/
theorem publish_single_attempt_witness :
    (publish sampleCodec ⟨Conn.fresh, [(MsgStoryCreated, [⟨1⟩])], false⟩ sampleMessage
      ⟨2, some (GoError.foreign "broken pipe")⟩).1.closed = false ∧
    (publish sampleCodec ⟨Conn.fresh, [(MsgStoryCreated, [⟨1⟩])], false⟩ sampleMessage
      ⟨2, some (GoError.foreign "broken pipe")⟩).1.handlers = [(MsgStoryCreated, [⟨1⟩])] ∧
    (publish sampleCodec ⟨Conn.fresh, [(MsgStoryCreated, [⟨1⟩])], false⟩ sampleMessage
      ⟨2, some (GoError.foreign "broken pipe")⟩).1.socket.written
      = [[116, 49, 0, 1, 2, 3]] :=
  have h := publish_single_attempt sampleCodec ⟨Conn.fresh, [(MsgStoryCreated, [⟨1⟩])], false⟩
    sampleMessage ⟨2, some (GoError.foreign "broken pipe")⟩ rfl
  ⟨h.1, h.2.1, h.2.2.2.2 [116, 49, 0, 1, 2, 3] rfl⟩

/-- C17: the type is the only dispatch key. Two frames that decode to envelopes of the
same type make the receive loop call the same handlers in the same order, namely the
list registered for that type, whatever else differs between the envelopes. -/
theorem dispatch_by_type_only (c : Codec) (a : agentBus) (r1 r2 : ReadResult)
    (e1 e2 : AgentMessage) (hr1 : r1.err = none) (hr2 : r2.err = none)
    (hd1 : c.Unmarshal (r1.filled.take bufferSize) = .ok e1)
    (hd2 : c.Unmarshal (r2.filled.take bufferSize) = .ok e2)
    (ht : e1.Type_ = e2.Type_) :
    (handleMessagesPass c a r1 []).2.map Invocation.handler
      = (handleMessagesPass c a r2 []).2.map Invocation.handler ∧
    (handleMessagesPass c a r1 []).2.map Invocation.handler = mapGet a.handlers e1.Type_ := by
  rw [handleMessagesPass_of_frame c a r1 [] e1 hr1 hd1,
    handleMessagesPass_of_frame c a r2 [] e2 hr2 hd2, ht]
  simp [List.map_map, Function.comp_def]

/-- Two frames of type `story.created`, one of low and one of high priority and with
different payloads, on a bus with handlers 1 and 2 registered: both call 1, then 2. -/
theorem dispatch_by_type_only_witness :
    (handleMessagesPass priorityCodec ⟨Conn.fresh, [(MsgStoryCreated, [⟨1⟩, ⟨2⟩])], false⟩
      ⟨[0, 1], none⟩ []).2.map Invocation.handler
    = (handleMessagesPass priorityCodec ⟨Conn.fresh, [(MsgStoryCreated, [⟨1⟩, ⟨2⟩])], false⟩
      ⟨[2, 5, 5], none⟩ []).2.map Invocation.handler :=
  (dispatch_by_type_only priorityCodec ⟨Conn.fresh, [(MsgStoryCreated, [⟨1⟩, ⟨2⟩])], false⟩
    ⟨[0, 1], none⟩ ⟨[2, 5, 5], none⟩
    { sampleMessage with ID := "", Priority := LowPriority, Payload := [1] }
    { sampleMessage with ID := "", Priority := HighPriority, Payload := [5, 5] }
    rfl rfl rfl rfl rfl).1

/-! ## Sequences of frames and reachable states -/

theorem handleMessagesPass_log (c : Codec) (a : agentBus) (r : ReadResult)
    (log : List Invocation) :
    handleMessagesPass c a r log
      = ((handleMessagesPass c a r []).1, log ++ (handleMessagesPass c a r []).2) := by
  cases hr : r.err with
  | some err => simp [handleMessagesPass, hr]
  | none =>
    cases hd : c.Unmarshal (r.filled.take bufferSize) with
    | error err => simp [handleMessagesPass, hr, hd]
    | ok e => simp [handleMessagesPass, hr, hd, dispatch_eq]

theorem handleMessagesPass_goes_on (c : Codec) (a : agentBus) (r : ReadResult)
    (log : List Invocation) (hr : r.err = none) : (handleMessagesPass c a r log).1 = true := by
  cases hd : c.Unmarshal (r.filled.take bufferSize) with
  | error err => simp [handleMessagesPass, hr, hd]
  | ok e => simp [handleMessagesPass, hr, hd]

theorem handleMessagesPass_of_empty_registry (c : Codec) (a : agentBus) (r : ReadResult)
    (log : List Invocation) (he : a.handlers = []) : (handleMessagesPass c a r log).2 = log := by
  cases hr : r.err with
  | some err => simp [handleMessagesPass, hr]
  | none =>
    cases hd : c.Unmarshal (r.filled.take bufferSize) with
    | error err => simp [handleMessagesPass, hr, hd]
    | ok e => simp [handleMessagesPass, hr, hd, he, mapGet, dispatch]

theorem performAll_append (c : Codec) (xs ys : List Call) :
    ∀ a : agentBus, performAll c a (xs ++ ys) = performAll c (performAll c a xs) ys := by
  induction xs with
  | nil =>
    intro a
    rfl
  | cons k rest ih =>
    intro a
    simp [performAll, ih]

theorem performCall_keeps_closed_empty (c : Codec) (a : agentBus) (k : Call)
    (hinv : a.closed = true → a.handlers = []) :
    (performCall c a k).1.closed = true → (performCall c a k).1.handlers = [] := by
  cases hc : a.closed with
  | true =>
    rw [performCall_of_closed c a k hc]
    intro _
    exact hinv hc
  | false =>
    cases k with
    | publish message w =>
      cases hm : c.Marshal message <;> simp [performCall, publish, hc, hm]
    | subscribe messageType handler => simp [performCall, subscribe, hc]
    | unsubscribe messageType handler =>
      simp [performCall, unsubscribe_of_open a messageType handler hc, hc]
    | close closeErr => simp [performCall, close, hc]

theorem performAll_keeps_closed_empty (c : Codec) (calls : List Call) :
    ∀ a : agentBus, (a.closed = true → a.handlers = []) →
      (performAll c a calls).closed = true → (performAll c a calls).handlers = [] := by
  induction calls with
  | nil =>
    intro a hinv
    exact hinv
  | cons k rest ih =>
    intro a hinv
    exact ih (performCall c a k).1 (performCall_keeps_closed_empty c a k hinv)

/-! ## The claims about frames in sequence and about reachable states -/

/-- C27: frames are processed one at a time, each to completion. When all reads
succeed and the bus does not change, the handler calls made by the receive loop are the
calls of the first frame, then those of the second, and so on: the concatenation in
frame order of what each single frame gives, which is nothing for a frame that does not
decode and the registered list, in order, for a frame that decodes. -/
theorem frames_processed_in_order (c : Codec) (a : agentBus) (reads : List ReadResult)
    (log : List Invocation) (hok : ∀ r ∈ reads, r.err = none) :
    handleMessages c a reads log
      = log ++ (reads.map (fun r => (handleMessagesPass c a r []).2)).flatten ∧
    (∀ r ∈ reads, ∀ err, c.Unmarshal (r.filled.take bufferSize) = .error err →
      (handleMessagesPass c a r []).2 = []) ∧
    (∀ r ∈ reads, ∀ e, c.Unmarshal (r.filled.take bufferSize) = .ok e →
      (handleMessagesPass c a r []).2
        = (mapGet a.handlers e.Type_).map (fun h => (⟨h, e⟩ : Invocation))) := by
  refine ⟨?_, ?_, ?_⟩
  · induction reads generalizing log with
    | nil => simp [handleMessages]
    | cons r rest ih =>
      have hr : r.err = none := hok r (List.mem_cons_self r rest)
      have hrest : ∀ x ∈ rest, x.err = none := fun x hx => hok x (List.mem_cons_of_mem r hx)
      have hpass : handleMessagesPass c a r log
          = (true, log ++ (handleMessagesPass c a r []).2) := by
        rw [handleMessagesPass_log, handleMessagesPass_goes_on c a r [] hr]
      simp only [handleMessages, hpass, List.map_cons, List.flatten_cons]
      rw [ih (log ++ (handleMessagesPass c a r []).2) hrest, List.append_assoc]
  · intro r hr err hd
    rw [handleMessagesPass_of_decode_error c a r [] err (hok r hr) hd]
  · intro r hr e hd
    rw [handleMessagesPass_of_frame c a r [] e (hok r hr) hd]
    simp

/-- Three reads on a bus with handlers 1 and 2 registered for `story.created`: a frame,
an empty frame that does not decode, and another frame. Handlers 1 and 2 are called
for the first frame, then 1 and 2 for the third. -/
theorem frames_processed_in_order_witness :
    handleMessages sampleCodec ⟨Conn.fresh, [(MsgStoryCreated, [⟨1⟩, ⟨2⟩])], false⟩
      [⟨[8], none⟩, ⟨[], none⟩, ⟨[9], none⟩] []
      = [⟨⟨1⟩, { sampleMessage with ID := "", Payload := [8] }⟩,
         ⟨⟨2⟩, { sampleMessage with ID := "", Payload := [8] }⟩,
         ⟨⟨1⟩, { sampleMessage with ID := "", Payload := [9] }⟩,
         ⟨⟨2⟩, { sampleMessage with ID := "", Payload := [9] }⟩] :=
  (frames_processed_in_order sampleCodec ⟨Conn.fresh, [(MsgStoryCreated, [⟨1⟩, ⟨2⟩])], false⟩
    [⟨[8], none⟩, ⟨[], none⟩, ⟨[9], none⟩] [] (by decide)).1

/-- C28: in a state reached from a new bus by any sequence of `publish`, `subscribe`,
`unsubscribe` and `close` calls, if the bus is closed then the registry is empty, no
type has a handler, and a pass of the receive loop calls no handler whatever it reads;
and whatever calls follow, the bus stays closed. -/
theorem closed_bus_has_empty_registry (c : Codec) (conn : Conn) (calls more : List Call)
    (r : ReadResult) (log : List Invocation)
    (hc : (performAll c (freshBus conn) calls).closed = true) :
    (performAll c (freshBus conn) calls).handlers = [] ∧
    (∀ t, mapGet (performAll c (freshBus conn) calls).handlers t = []) ∧
    (handleMessagesPass c (performAll c (freshBus conn) calls) r log).2 = log ∧
    (performAll c (freshBus conn) (calls ++ more)).closed = true ∧
    performAll c (freshBus conn) (calls ++ more) = performAll c (freshBus conn) calls := by
  have he : (performAll c (freshBus conn) calls).handlers = [] :=
    performAll_keeps_closed_empty c calls (freshBus conn) (by simp [freshBus]) hc
  have hmore : performAll c (freshBus conn) (calls ++ more)
      = performAll c (freshBus conn) calls := by
    rw [performAll_append, performAll_of_closed c _ more hc]
  refine ⟨he, ?_, handleMessagesPass_of_empty_registry c _ r log he, ?_, hmore⟩
  · intro t
    rw [he]
    rfl
  · rw [hmore]
    exact hc

/-- A new bus on which two handlers are subscribed and which is then closed: the
registry is empty, and a later `subscribe` does not reopen the bus. -/
theorem closed_bus_has_empty_registry_witness :
    (performAll sampleCodec (freshBus Conn.fresh)
      [.subscribe MsgStoryCreated ⟨1⟩, .subscribe MsgError ⟨2⟩, .close none]).handlers = [] ∧
    (performAll sampleCodec (freshBus Conn.fresh)
      ([.subscribe MsgStoryCreated ⟨1⟩, .subscribe MsgError ⟨2⟩, .close none]
        ++ [.subscribe MsgStoryCreated ⟨3⟩])).closed = true :=
  have h := closed_bus_has_empty_registry sampleCodec Conn.fresh
    [.subscribe MsgStoryCreated ⟨1⟩, .subscribe MsgError ⟨2⟩, .close none]
    [.subscribe MsgStoryCreated ⟨3⟩] ⟨[9], none⟩ [] rfl
  ⟨h.1, h.2.2.2.1⟩

/-- C29: on an open bus `unsubscribe(t, h)` returns nil and leaves the bus as it is, so
the list of every type, `t` included, is as before, whether `h` is registered for `t`
or not: the test `&h == &handler` compares the addresses of two different variables
and is false in every iteration, so the loop never reaches the removal. -/
theorem unsubscribe_never_removes (a : agentBus) (t : MessageType) (h : Handler)
    (ho : a.closed = false) :
    (∀ i, ptrEq (Var.h i) Var.handler = false) ∧
    unsubscribeScan 0 (mapGet a.handlers t) = none ∧
    unsubscribe a t h = (a, none) ∧
    (∀ t', mapGet (unsubscribe a t h).1.handlers t' = mapGet a.handlers t') := by
  refine ⟨?_, unsubscribeScan_none 0 _, unsubscribe_of_open a t h ho, ?_⟩
  · intro i
    simp [ptrEq]
  · intro t'
    rw [unsubscribe_of_open a t h ho]

/-- Unsubscribing handler 1 from `story.created` on a bus where handlers 1 and 2 are
registered for that type: both stay registered. -/
theorem unsubscribe_never_removes_witness :
    unsubscribe ⟨Conn.fresh, [(MsgStoryCreated, [⟨1⟩, ⟨2⟩])], false⟩ MsgStoryCreated ⟨1⟩
      = (⟨Conn.fresh, [(MsgStoryCreated, [⟨1⟩, ⟨2⟩])], false⟩, none) :=
  (unsubscribe_never_removes ⟨Conn.fresh, [(MsgStoryCreated, [⟨1⟩, ⟨2⟩])], false⟩
    MsgStoryCreated ⟨1⟩ rfl).2.2.1

end Communication

namespace Models

/-! ## Facts about the loops of the task methods -/

theorem addDependencyScan_eq_true_iff (deps : List String) (d : String) :
    addDependencyScan deps d = true ↔ d ∈ deps := by
  induction deps with
  | nil => simp [addDependencyScan]
  | cons x rest ih =>
    by_cases hx : x = d
    · simp [addDependencyScan, hx]
    · have hx2 : ¬ d = x := fun h => hx h.symm
      simp [addDependencyScan, hx, hx2, ih]

theorem removeDependencyScan_none (deps : List String) (d : String) (hn : d ∉ deps) :
    ∀ i, removeDependencyScan i deps d = none := by
  induction deps with
  | nil =>
    intro i
    rfl
  | cons x rest ih =>
    intro i
    have hx : ¬ x = d := fun h => hn (by simp [h])
    have hrest : d ∉ rest := fun h => hn (List.mem_cons_of_mem x h)
    simp [removeDependencyScan, hx, ih hrest]

theorem removeDependencyScan_some (deps : List String) (d : String) (hm : d ∈ deps) :
    ∀ i, ∃ before after, deps = before ++ d :: after ∧ d ∉ before ∧
      removeDependencyScan i deps d = some (i + before.length) := by
  induction deps with
  | nil => simp at hm
  | cons x rest ih =>
    intro i
    by_cases hx : x = d
    · refine ⟨[], rest, by simp [hx], by simp, ?_⟩
      simp [removeDependencyScan, hx]
    · have hrest : d ∈ rest := by
        rcases List.mem_cons.1 hm with h | h
        · exact absurd h.symm hx
        · exact h
      obtain ⟨before, after, hsplit, hnot, hscan⟩ := ih hrest (i + 1)
      refine ⟨x :: before, after, by simp [hsplit], ?_, ?_⟩
      · intro hmem
        rcases List.mem_cons.1 hmem with h | h
        · exact hx h.symm
        · exact hnot h
      · simp [removeDependencyScan, hx, hscan]
        omega

theorem take_append_drop_succ (before after : List String) (d : String) :
    (before ++ d :: after).take before.length
      ++ (before ++ d :: after).drop (before.length + 1) = before ++ after := by
  induction before with
  | nil => simp
  | cons x rest ih => simp [ih]

/-! ## The claims about the development task -/

/-- C19: after `AddDependency(d)` the id `d` is among the dependencies; when `d` was
there already the task is unchanged; when it was not, the list is the old one with `d`
appended at the end and nothing else changes; so a second `AddDependency(d)` changes
nothing. -/
theorem AddDependency_prevents_duplicates (dt : DevTask) (d : String) :
    d ∈ (dt.AddDependency d).Dependencies ∧
    (d ∈ dt.Dependencies → dt.AddDependency d = dt) ∧
    (d ∉ dt.Dependencies →
      dt.AddDependency d = { dt with Dependencies := dt.Dependencies ++ [d] }) ∧
    (dt.AddDependency d).AddDependency d = dt.AddDependency d := by
  have hin : d ∈ dt.Dependencies → dt.AddDependency d = dt := by
    intro h
    simp [DevTask.AddDependency, (addDependencyScan_eq_true_iff dt.Dependencies d).2 h]
  have hout : d ∉ dt.Dependencies →
      dt.AddDependency d = { dt with Dependencies := dt.Dependencies ++ [d] } := by
    intro h
    have hs : addDependencyScan dt.Dependencies d = false := by
      cases hb : addDependencyScan dt.Dependencies d
      · rfl
      · exact absurd ((addDependencyScan_eq_true_iff dt.Dependencies d).1 hb) h
    simp [DevTask.AddDependency, hs]
  have hmem : d ∈ (dt.AddDependency d).Dependencies := by
    by_cases h : d ∈ dt.Dependencies
    · rw [hin h]
      exact h
    · rw [hout h]
      simp
  refine ⟨hmem, hin, hout, ?_⟩
  have hscan := (addDependencyScan_eq_true_iff (dt.AddDependency d).Dependencies d).2 hmem
  simp [DevTask.AddDependency] at hscan ⊢
  simp [hscan]

/-- Adding "b", which the sample task depends on already, and adding "c", which is
new. -/
theorem AddDependency_prevents_duplicates_witness :
    sampleTask.AddDependency "b" = sampleTask ∧
    sampleTask.AddDependency "c"
      = { sampleTask with Dependencies := ["a", "b", "a"] ++ ["c"] } :=
  ⟨(AddDependency_prevents_duplicates sampleTask "b").2.1 (by decide),
   (AddDependency_prevents_duplicates sampleTask "c").2.2.1 (by decide)⟩

/-- C20: when `d` is among the dependencies, `RemoveDependency(d)` removes its first
occurrence and keeps all other entries in order, so the list gets shorter by exactly
one; when `d` is not among them the task is unchanged. -/
theorem RemoveDependency_removes_first_occurrence (dt : DevTask) (d : String) :
    (d ∈ dt.Dependencies → ∃ before after,
      dt.Dependencies = before ++ d :: after ∧ d ∉ before ∧
      dt.RemoveDependency d = { dt with Dependencies := before ++ after } ∧
      (dt.RemoveDependency d).Dependencies.length + 1 = dt.Dependencies.length) ∧
    (d ∉ dt.Dependencies → dt.RemoveDependency d = dt) ∧
    (dt.RemoveDependency d).Dependencies = dt.Dependencies.erase d := by
  have hin : d ∈ dt.Dependencies → ∃ before after,
      dt.Dependencies = before ++ d :: after ∧ d ∉ before ∧
      dt.RemoveDependency d = { dt with Dependencies := before ++ after } := by
    intro h
    obtain ⟨before, after, hsplit, hnot, hscan⟩ := removeDependencyScan_some dt.Dependencies d h 0
    refine ⟨before, after, hsplit, hnot, ?_⟩
    simp only [DevTask.RemoveDependency, hscan, Nat.zero_add]
    rw [hsplit, take_append_drop_succ]
  have hout : d ∉ dt.Dependencies → dt.RemoveDependency d = dt := by
    intro h
    simp [DevTask.RemoveDependency, removeDependencyScan_none dt.Dependencies d h 0]
  refine ⟨?_, hout, ?_⟩
  · intro h
    obtain ⟨before, after, hsplit, hnot, hres⟩ := hin h
    refine ⟨before, after, hsplit, hnot, hres, ?_⟩
    rw [hres, hsplit]
    simp
    omega
  · by_cases h : d ∈ dt.Dependencies
    · obtain ⟨before, after, hsplit, hnot, hres⟩ := hin h
      rw [hres, hsplit, List.erase_append_right _ hnot]
      simp
    · rw [hout h, List.erase_of_not_mem h]

/-- Removing "a", which occurs first and last in the sample task, removes the first
occurrence only and makes the list one shorter; removing "z", which does not occur,
changes nothing. -/
theorem RemoveDependency_removes_first_occurrence_witness :
    (sampleTask.RemoveDependency "a").Dependencies = ["b", "a"] ∧
    (sampleTask.RemoveDependency "a").Dependencies.length + 1 = sampleTask.Dependencies.length ∧
    sampleTask.RemoveDependency "z" = sampleTask :=
  ⟨(RemoveDependency_removes_first_occurrence sampleTask "a").2.2,
   Exists.elim ((RemoveDependency_removes_first_occurrence sampleTask "a").1 (by decide))
     (fun _ h1 => Exists.elim h1 (fun _ h2 => h2.2.2.2)),
   (RemoveDependency_removes_first_occurrence sampleTask "z").2.1 (by decide)⟩

/-! ## Facts about the sprint, the task calls and the story calls -/

theorem contains_eq_true_iff (slice : List String) (item : String) :
    contains slice item = true ↔ item ∈ slice := by
  induction slice with
  | nil => simp [contains]
  | cons x rest ih =>
    by_cases hx : x = item
    · simp [contains, hx]
    · have hx2 : ¬ item = x := fun h => hx h.symm
      simp [contains, hx, hx2, ih]

theorem contains_eq_false_iff (slice : List String) (item : String) :
    contains slice item = false ↔ item ∉ slice := by
  rw [← contains_eq_true_iff]
  cases contains slice item <;> simp

theorem removeCommittedStoryScan_eq (ids : List String) (storyID : String) :
    ∀ i, removeCommittedStoryScan i ids storyID = removeDependencyScan i ids storyID := by
  induction ids with
  | nil =>
    intro i
    rfl
  | cons x rest ih =>
    intro i
    simp [removeCommittedStoryScan, removeDependencyScan, ih]

theorem RemoveDependency_Dependencies (dt : DevTask) (d : String) :
    (dt.RemoveDependency d).Dependencies = dt.Dependencies.erase d := by
  by_cases h : d ∈ dt.Dependencies
  · obtain ⟨before, after, hsplit, hnot, hscan⟩ :=
      removeDependencyScan_some dt.Dependencies d h 0
    simp only [DevTask.RemoveDependency, hscan, Nat.zero_add]
    rw [hsplit, take_append_drop_succ, List.erase_append_right _ hnot]
    simp
  · simp [DevTask.RemoveDependency, removeDependencyScan_none dt.Dependencies d h 0,
      List.erase_of_not_mem h]

theorem AddDependency_Nodup (dt : DevTask) (d : String) (hn : dt.Dependencies.Nodup) :
    (dt.AddDependency d).Dependencies.Nodup := by
  cases hs : addDependencyScan dt.Dependencies d with
  | true => simpa [DevTask.AddDependency, hs] using hn
  | false =>
    have hnot : d ∉ dt.Dependencies := by
      intro hmem
      rw [(addDependencyScan_eq_true_iff dt.Dependencies d).2 hmem] at hs
      cases hs
    simp only [DevTask.AddDependency, hs, Bool.false_eq_true, if_false]
    exact List.Nodup.append hn (List.nodup_singleton d) (by simpa using hnot)

theorem performTaskCall_Nodup (dt : DevTask) (k : TaskCall) (hn : dt.Dependencies.Nodup) :
    (performTaskCall dt k).Dependencies.Nodup := by
  cases k with
  | Update title taskType estimate assignee => exact hn
  | SetStatus status => exact hn
  | AddDependency d => exact AddDependency_Nodup dt d hn
  | RemoveDependency d =>
    simp only [performTaskCall, RemoveDependency_Dependencies]
    exact hn.erase d

theorem performTaskCalls_Nodup (calls : List TaskCall) :
    ∀ dt : DevTask, dt.Dependencies.Nodup → (performTaskCalls dt calls).Dependencies.Nodup := by
  induction calls with
  | nil =>
    intro dt hn
    exact hn
  | cons k rest ih =>
    intro dt hn
    exact ih (performTaskCall dt k) (performTaskCall_Nodup dt k hn)

theorem performStoryCall_some (us : UserStory) (k : StoryCall) (he : us.Estimate.isSome = true) :
    ∃ us1, performStoryCall us k = some us1 ∧ us1.CreatedAt = us.CreatedAt ∧
      us1.UpdatedAt = storyCallTime k ∧ us1.Estimate.isSome = true := by
  cases k with
  | Update title description priority businessValue now =>
    exact ⟨_, rfl, rfl, rfl, he⟩
  | SetStatus status now => exact ⟨_, rfl, rfl, rfl, he⟩
  | AddAcceptanceCriterion criterion now => exact ⟨_, rfl, rfl, rfl, he⟩
  | SetEstimate points now =>
    cases hest : us.Estimate with
    | none => simp [hest] at he
    | some estimate =>
      refine ⟨{ us with Estimate := some { estimate with Points := points },
                        UpdatedAt := now }, ?_, rfl, rfl, rfl⟩
      simp [performStoryCall, UserStory.SetEstimate, hest]

theorem performStoryCalls_some (calls : List StoryCall) :
    ∀ us : UserStory, us.Estimate.isSome = true →
      us.CreatedAt.instant ≤ us.UpdatedAt.instant →
      neverDecreasing (us.UpdatedAt :: calls.map storyCallTime) →
      ∃ us1, performStoryCalls us calls = some us1 ∧ us1.CreatedAt = us.CreatedAt ∧
        us1.CreatedAt.instant ≤ us1.UpdatedAt.instant ∧ us1.Estimate.isSome = true := by
  induction calls with
  | nil =>
    intro us he hle _
    exact ⟨us, rfl, rfl, hle, he⟩
  | cons k rest ih =>
    intro us he hle hclock
    obtain ⟨us1, hstep, hcreated, hupdated, he1⟩ := performStoryCall_some us k he
    have hchain : List.Chain' (fun t u : Time => t.instant ≤ u.instant)
        (us.UpdatedAt :: storyCallTime k :: rest.map storyCallTime) := by
      simpa [neverDecreasing] using hclock
    have hhead : us.UpdatedAt.instant ≤ (storyCallTime k).instant :=
      (List.chain'_cons.1 hchain).1
    have htail : neverDecreasing (us1.UpdatedAt :: rest.map storyCallTime) := by
      rw [hupdated]
      exact (List.chain'_cons.1 hchain).2
    have hle1 : us1.CreatedAt.instant ≤ us1.UpdatedAt.instant := by
      rw [hcreated, hupdated]
      exact le_trans hle hhead
    obtain ⟨us2, hrest, hcreated2, hle2, he2⟩ := ih us1 he1 hle1 htail
    refine ⟨us2, ?_, hcreated2.trans hcreated, hle2, he2⟩
    simp [performStoryCalls, hstep, hrest]

/-! ## The claims about the sprint, the story and the identifiers -/

/-- C21: `AddCommittedStory(s)` leaves the sprint unchanged when `s` is already
committed and otherwise appends `s` at the end of `Committed`; it never changes
`Completed`. In the same way `AddCompletedStory(s)` leaves the sprint unchanged when
`s` is already completed and otherwise appends `s` at the end of `Completed`; it never
changes `Committed`. -/
theorem AddStory_never_duplicates (sp : Sprint) (s : String) :
    (s ∈ sp.Committed → sp.AddCommittedStory s = sp) ∧
    (s ∉ sp.Committed →
      sp.AddCommittedStory s = { sp with Committed := sp.Committed ++ [s] }) ∧
    (sp.AddCommittedStory s).Completed = sp.Completed ∧
    (s ∈ sp.Completed → sp.AddCompletedStory s = sp) ∧
    (s ∉ sp.Completed →
      sp.AddCompletedStory s = { sp with Completed := sp.Completed ++ [s] }) ∧
    (sp.AddCompletedStory s).Committed = sp.Committed := by
  refine ⟨?_, ?_, ?_, ?_, ?_, ?_⟩
  · intro h
    simp [Sprint.AddCommittedStory, (contains_eq_true_iff sp.Committed s).2 h]
  · intro h
    simp [Sprint.AddCommittedStory, (contains_eq_false_iff sp.Committed s).2 h]
  · cases hc : contains sp.Committed s <;> simp [Sprint.AddCommittedStory, hc]
  · intro h
    simp [Sprint.AddCompletedStory, (contains_eq_true_iff sp.Completed s).2 h]
  · intro h
    simp [Sprint.AddCompletedStory, (contains_eq_false_iff sp.Completed s).2 h]
  · cases hc : contains sp.Completed s <;> simp [Sprint.AddCompletedStory, hc]

/-- On the sample sprint: "s2" is committed and completed already, "s3" is new. -/
theorem AddStory_never_duplicates_witness :
    sampleSprint.AddCommittedStory "s2" = sampleSprint ∧
    sampleSprint.AddCommittedStory "s3"
      = { sampleSprint with Committed := ["s1", "s2", "s1"] ++ ["s3"] } ∧
    sampleSprint.AddCompletedStory "s2" = sampleSprint ∧
    sampleSprint.AddCompletedStory "s3"
      = { sampleSprint with Completed := ["s2"] ++ ["s3"] } :=
  ⟨(AddStory_never_duplicates sampleSprint "s2").1 (by decide),
   (AddStory_never_duplicates sampleSprint "s3").2.1 (by decide),
   (AddStory_never_duplicates sampleSprint "s2").2.2.2.1 (by decide),
   (AddStory_never_duplicates sampleSprint "s3").2.2.2.2.1 (by decide)⟩

/-- C22: when `s` is committed, `RemoveCommittedStory(s)` removes the first occurrence
of `s` from `Committed` and keeps the other ids in order; when `s` is not committed
the sprint is unchanged; `Completed` is never changed. -/
theorem RemoveCommittedStory_removes_first_occurrence (sp : Sprint) (s : String) :
    (s ∈ sp.Committed → ∃ before after,
      sp.Committed = before ++ s :: after ∧ s ∉ before ∧
      sp.RemoveCommittedStory s = { sp with Committed := before ++ after }) ∧
    (s ∉ sp.Committed → sp.RemoveCommittedStory s = sp) ∧
    (sp.RemoveCommittedStory s).Committed = sp.Committed.erase s ∧
    (sp.RemoveCommittedStory s).Completed = sp.Completed := by
  have hin : s ∈ sp.Committed → ∃ before after,
      sp.Committed = before ++ s :: after ∧ s ∉ before ∧
      sp.RemoveCommittedStory s = { sp with Committed := before ++ after } := by
    intro h
    obtain ⟨before, after, hsplit, hnot, hscan⟩ := removeDependencyScan_some sp.Committed s h 0
    refine ⟨before, after, hsplit, hnot, ?_⟩
    simp only [Sprint.RemoveCommittedStory, removeCommittedStoryScan_eq, hscan, Nat.zero_add]
    rw [hsplit, take_append_drop_succ]
  have hout : s ∉ sp.Committed → sp.RemoveCommittedStory s = sp := by
    intro h
    simp [Sprint.RemoveCommittedStory, removeCommittedStoryScan_eq,
      removeDependencyScan_none sp.Committed s h 0]
  refine ⟨hin, hout, ?_, ?_⟩
  · by_cases h : s ∈ sp.Committed
    · obtain ⟨before, after, hsplit, hnot, hres⟩ := hin h
      rw [hres, hsplit, List.erase_append_right _ hnot]
      simp
    · rw [hout h, List.erase_of_not_mem h]
  · by_cases h : s ∈ sp.Committed
    · obtain ⟨before, after, _, _, hres⟩ := hin h
      rw [hres]
    · rw [hout h]

/-- On the sample sprint, where "s1" is committed first and last: removing "s1" removes
the first one only, removing "s9" changes nothing. -/
theorem RemoveCommittedStory_removes_first_occurrence_witness :
    (sampleSprint.RemoveCommittedStory "s1").Committed = ["s2", "s1"] ∧
    sampleSprint.RemoveCommittedStory "s9" = sampleSprint :=
  ⟨(RemoveCommittedStory_removes_first_occurrence sampleSprint "s1").2.2.1,
   (RemoveCommittedStory_removes_first_occurrence sampleSprint "s9").2.1 (by decide)⟩

/-- C23: for a story made by `NewUserStory` and changed by any sequence of `Update`,
`SetStatus`, `AddAcceptanceCriterion` and `SetEstimate` calls, when the clock readings
taken for `CreatedAt`, for `UpdatedAt` and by the calls never decrease, all calls
return, `CreatedAt` is still the reading taken at creation and `UpdatedAt` is not
before `CreatedAt`. -/
theorem UpdatedAt_not_before_CreatedAt (title description : String) (nowID : Time) (draw : Nat)
    (nowCreated nowUpdated : Time) (calls : List StoryCall)
    (hclock : neverDecreasing (nowCreated :: nowUpdated :: calls.map storyCallTime)) :
    ∃ us, performStoryCalls (NewUserStory title description nowID draw nowCreated nowUpdated)
        calls = some us ∧
      us.CreatedAt = nowCreated ∧ us.UpdatedAt.Before us.CreatedAt = false := by
  have hchain : List.Chain' (fun t u : Time => t.instant ≤ u.instant)
      (nowCreated :: nowUpdated :: calls.map storyCallTime) := hclock
  obtain ⟨us, hrun, hcreated, hle, _⟩ :=
    performStoryCalls_some calls (NewUserStory title description nowID draw nowCreated nowUpdated)
      rfl (List.chain'_cons.1 hchain).1 (List.chain'_cons.1 hchain).2
  refine ⟨us, hrun, hcreated, ?_⟩
  simp only [Time.Before, decide_eq_false_iff_not, not_lt]
  exact hle

/-- A story created at readings 10 and 20 and then estimated at reading 20 and updated
at reading 30. -/
theorem UpdatedAt_not_before_CreatedAt_witness :
    ∃ us, performStoryCalls
        (NewUserStory "Login" "Users can log in" (sampleTime 5) 42 (sampleTime 10)
          (sampleTime 20))
        [.SetEstimate 3 (sampleTime 20), .Update "Login" "SSO" PriorityHigh 8 (sampleTime 30)]
        = some us ∧
      us.CreatedAt = sampleTime 10 ∧ us.UpdatedAt.Before us.CreatedAt = false :=
  UpdatedAt_not_before_CreatedAt "Login" "Users can log in" (sampleTime 5) 42 (sampleTime 10)
    (sampleTime 20)
    [.SetEstimate 3 (sampleTime 20), .Update "Login" "SSO" PriorityHigh 8 (sampleTime 30)]
    (by simp [neverDecreasing, storyCallTime, sampleTime])

/-- C24: `NewDevTask(storyID, title, assignee)` returns a task with that `StoryID`,
`Title` and `Assignee`, type `Development`, an estimate of four hours, status `Todo`,
no dependencies, and an ID that starts with "task-" and has at least 5 characters,
whatever the clock and the random source return. -/
theorem NewDevTask_fields (storyID title assignee : String) (now : Time) (draw : Nat) :
    (NewDevTask storyID title assignee now draw).StoryID = storyID ∧
    (NewDevTask storyID title assignee now draw).Title = title ∧
    (NewDevTask storyID title assignee now draw).Assignee = assignee ∧
    (NewDevTask storyID title assignee now draw).Type_ = TaskDevelopment ∧
    (NewDevTask storyID title assignee now draw).Estimate = 4 * Hour ∧
    (NewDevTask storyID title assignee now draw).Status = TaskTodo ∧
    (NewDevTask storyID title assignee now draw).Dependencies = [] ∧
    (∃ rest, (NewDevTask storyID title assignee now draw).ID = "task-" ++ rest) ∧
    (NewDevTask storyID title assignee now draw).ID.toList.take 5 = ['t', 'a', 's', 'k', '-'] ∧
    5 ≤ (NewDevTask storyID title assignee now draw).ID.length := by
  refine ⟨rfl, rfl, rfl, rfl, ?_, rfl, rfl, ?_, ?_, ?_⟩
  · simp [NewDevTask, Hour]
  · exact ⟨formatStamp now ++ "." ++ FormatInt draw, by
      simp [NewDevTask, generateIDDT, String.append_assoc]⟩
  · simp [NewDevTask, generateIDDT, String.append_assoc]
  · simp only [NewDevTask, generateIDDT, String.length_append]
    have h5 : "task-".length = 5 := by decide
    omega

/-- C25: `NewUserStory(title, description)` returns a story with that `Title` and
`Description`, no acceptance criteria, business value 5, priority `Medium`, status
`Draft` and a present estimate of 0 points, whatever the clock and the random source
return. -/
theorem NewUserStory_fields (title description : String) (nowID : Time) (draw : Nat)
    (nowCreated nowUpdated : Time) :
    (NewUserStory title description nowID draw nowCreated nowUpdated).Title = title ∧
    (NewUserStory title description nowID draw nowCreated nowUpdated).Description
      = description ∧
    (NewUserStory title description nowID draw nowCreated nowUpdated).AcceptanceCriteria = [] ∧
    (NewUserStory title description nowID draw nowCreated nowUpdated).BusinessValue = 5 ∧
    (NewUserStory title description nowID draw nowCreated nowUpdated).Priority
      = PriorityMedium ∧
    (NewUserStory title description nowID draw nowCreated nowUpdated).Status = StoryDraft ∧
    (NewUserStory title description nowID draw nowCreated nowUpdated).Estimate
      = some { Points := 0 } :=
  ⟨rfl, rfl, rfl, rfl, rfl, rfl, rfl⟩

/-- C26, evaluated on the code: two calls whose clock readings fall into the same
microsecond and whose random draws are the same return the same string, for
`generateIDDT` and for `generateIDUS`, although the two clock readings differ. -/
theorem generated_ids_coincide :
    sampleTime 123456001 ≠ sampleTime 123456999 ∧
    generateIDDT (sampleTime 123456001) 5577006791947779410
      = "task-20240101000000.123456.5577006791947779410" ∧
    generateIDDT (sampleTime 123456999) 5577006791947779410
      = "task-20240101000000.123456.5577006791947779410" ∧
    generateIDUS (sampleTime 123456001) 5577006791947779410
      = "story-20240101000000.123456.5577006791947779410" ∧
    generateIDUS (sampleTime 123456999) 5577006791947779410
      = "story-20240101000000.123456.5577006791947779410" := by
  refine ⟨by decide, by decide, by decide, by decide, by decide⟩

/-- C30: a task reached from `NewDevTask` by any sequence of `AddDependency`,
`RemoveDependency`, `Update` and `SetStatus` calls has no id twice among its
dependencies; so after `RemoveDependency(d)` on such a task, `d` is not among the
dependencies any more. -/
theorem reachable_task_dependencies_nodup (storyID title assignee : String) (now : Time)
    (draw : Nat) (calls : List TaskCall) (d : String) :
    (performTaskCalls (NewDevTask storyID title assignee now draw) calls).Dependencies.Nodup ∧
    d ∉ ((performTaskCalls (NewDevTask storyID title assignee now draw) calls).RemoveDependency
      d).Dependencies := by
  have hn : (performTaskCalls (NewDevTask storyID title assignee now draw)
      calls).Dependencies.Nodup :=
    performTaskCalls_Nodup calls _ (by simp [NewDevTask])
  refine ⟨hn, ?_⟩
  rw [RemoveDependency_Dependencies]
  intro hmem
  exact (hn.mem_erase_iff.1 hmem).1 rfl

/-! ## The estimate of a reachable story -/

theorem performStoryCalls_present (calls : List StoryCall) :
    ∀ us : UserStory, us.Estimate.isSome = true →
      ∃ us1, performStoryCalls us calls = some us1 ∧ us1.Estimate.isSome = true := by
  induction calls with
  | nil =>
    intro us he
    exact ⟨us, rfl, he⟩
  | cons k rest ih =>
    intro us he
    obtain ⟨us1, hstep, _, _, he1⟩ := performStoryCall_some us k he
    obtain ⟨us2, hrest, he2⟩ := ih us1 he1
    exact ⟨us2, by simp [performStoryCalls, hstep, hrest], he2⟩

/-- C31: for a story made by `NewUserStory` and changed by any sequence of `Update`,
`SetStatus`, `AddAcceptanceCriterion` and `SetEstimate` calls, all calls return and the
estimate is present; so a further `SetEstimate(p)` returns, sets the points of the
estimate to `p` and leaves `Title`, `Description`, `Priority`, `BusinessValue`,
`Status` and `AcceptanceCriteria` (and `ID` and `CreatedAt`) as they were. -/
theorem SetEstimate_on_reachable_story (title description : String) (nowID : Time) (draw : Nat)
    (nowCreated nowUpdated : Time) (calls : List StoryCall) (p : Int) (now : Time) :
    ∃ us us1,
      performStoryCalls (NewUserStory title description nowID draw nowCreated nowUpdated) calls
        = some us ∧
      us.Estimate.isSome = true ∧
      us.SetEstimate p now = some us1 ∧
      us1.Estimate = some { Points := p } ∧
      us1.Title = us.Title ∧ us1.Description = us.Description ∧
      us1.Priority = us.Priority ∧ us1.BusinessValue = us.BusinessValue ∧
      us1.Status = us.Status ∧ us1.AcceptanceCriteria = us.AcceptanceCriteria ∧
      us1.ID = us.ID ∧ us1.CreatedAt = us.CreatedAt := by
  obtain ⟨us, hrun, he⟩ :=
    performStoryCalls_present calls
      (NewUserStory title description nowID draw nowCreated nowUpdated) rfl
  cases hest : us.Estimate with
  | none => simp [hest] at he
  | some estimate =>
    refine ⟨us, { us with Estimate := some { estimate with Points := p }, UpdatedAt := now },
      hrun, ?_, ?_, rfl, rfl, rfl, rfl, rfl, rfl, rfl, rfl, rfl⟩
    · simp [hest]
    · simp [UserStory.SetEstimate, hest]

end Models
